import Mathlib

/-!
Verification of `cupyx/scipy/signal/_ltisys.py` (LTI system representations
and the discrete-time simulation engine) against its specification.

Matrices are embedded as lists of rows over `ℚ` (exact arithmetic standing in
for the float arrays of the dense backend); systems are a tagged union of the
three representations; fallible operations return `Except LtiErr`.
External numeric collaborators that are not part of the translated source
(`tf2ss`, `zpk2tf`, `ss2tf`, `freqz`, `make_interp_spline`) are modelled from
the specification and carry a doc comment saying so.
-/

set_option autoImplicit false

namespace Ltisys

/-- A dense 2-D array: a list of rows.  Mirrors the `cupy.ndarray` values the
source manipulates (row-major, shape = (number of rows, length of a row)). -/
abbrev Mat := List (List ℚ)

/-- Number of columns of a matrix, read off the first row (rows of any array
built by the source are uniform in length). -/
def width (M : Mat) : ℕ := (M.headD []).length

/-- Entry `M[i][j]`, 0 outside the stored data. -/
def entry (M : Mat) (i j : ℕ) : ℚ := (M.getD i []).getD j 0

/-- Shape predicate: `M` has `m` rows, each of length `n`. -/
def IsMat (M : Mat) (m n : ℕ) : Prop :=
  M.length = m ∧ ∀ row ∈ M, row.length = n

instance decIsMat (M : Mat) (m n : ℕ) : Decidable (IsMat M m n) := by
  unfold IsMat
  infer_instance

/-- Dot product of two coefficient lists (truncating at the shorter one, the
way `zipWith` does; shapes agree in every use the source makes of it). -/
def dotProd (xs ys : List ℚ) : ℚ := (List.zipWith (· * ·) xs ys).sum

/-- Matrix–vector product `M @ x`. -/
def matVec (M : Mat) (x : List ℚ) : List ℚ := M.map (fun r => dotProd r x)

/-- Column `j` of a matrix. -/
def col (M : Mat) (j : ℕ) : List ℚ := M.map (fun r => r.getD j 0)

/-- Matrix product `A @ B` (the `cupy` matmul on 2-D operands). -/
def matMul (A B : Mat) : Mat :=
  A.map (fun r => (List.range (width B)).map (fun j => dotProd r (col B j)))

/-- Elementwise vector sum. -/
def vecAdd (x y : List ℚ) : List ℚ := List.zipWith (· + ·) x y

/-- Elementwise vector difference. -/
def vecSub (x y : List ℚ) : List ℚ := List.zipWith (· - ·) x y

/-- Elementwise matrix sum (used where the source adds same-shaped arrays). -/
def matAddSame (A B : Mat) : Mat := List.zipWith vecAdd A B

/-- An `m × n` zero matrix (`cupy.zeros`). -/
def zerosMat (m n : ℕ) : Mat := List.replicate m (List.replicate n 0)

/-- Horizontal concatenation `cupy.hstack` of two 2-D arrays. -/
def hstack (A B : Mat) : Mat := List.zipWith (· ++ ·) A B

/-- Vertical concatenation `cupy.vstack` of two 2-D arrays. -/
def vstack (A B : Mat) : Mat := A ++ B

/-- Block-diagonal assembly `linalg.block_diag` of two blocks. -/
def block_diag (A B : Mat) : Mat :=
  vstack (hstack A (zerosMat A.length (width B)))
         (hstack (zerosMat B.length (width A)) B)

/-- Error classes raised by the translated functions (the source raises
`AttributeError`, `TypeError`, `ValueError`, `IndexError`, `NameError`; the
spec's taxonomy names the first `NotDiscreteTime` and the shape failures
`IncompatibleDimensions`). -/
inductive LtiErr where
  /-- `AttributeError`: a discrete-time routine was handed a continuous
  (`lti`) system. -/
  | notDiscreteTime
  /-- `TypeError`: binary operation mixing a continuous and a discrete
  `StateSpace` system (Python surfaces the returned `NotImplemented` as a
  `TypeError`). -/
  | incompatibleTimeDomain
  /-- `TypeError`: binary operation on two discrete systems with different
  sample periods. -/
  | differentDt
  /-- `ValueError` from a dense-backend shape check (stacking arrays of
  mismatched shape, adding arrays of mismatched shape, matmul with
  mismatched inner dimensions) or from the explicit `D.shape` check in
  `StateSpace.__add__`. -/
  | incompatibleDimensions
  /-- `ValueError` raised by `cupy` matmul when one operand is a 0-d scalar:
  `B @ other` with a scalar `other` does not scale `B`, it raises. -/
  | matmulScalarOperand
  /-- `IndexError`: indexing `t[-1]` or `yout[out_samples - 1]` on an empty
  array. -/
  | indexError
  /-- `ValueError`: assigning an initial state of the wrong length into
  `xout[0, :]`. -/
  | valueError
  /-- `NameError`: `dimpulse`/`dstep` on a system with zero inputs never
  binds `tout`/`yout` in their loop. -/
  | nameError
deriving DecidableEq

/-- The three LTI representations (the payload of `TransferFunction`,
`ZerosPolesGain` and `StateSpace` instances). -/
inductive SysRep where
  | tf (num den : List ℚ)
  | zpk (zeros poles : List ℚ) (gain : ℚ)
  | ss (A B C D : Mat)
deriving DecidableEq

/-- A discrete-time (`dlti`) system instance: a representation plus its
sample period.  (The `dt=True` "unspecified" sentinel is not modelled; every
claim works with a concrete sample period.) -/
structure DSys where
  rep : SysRep
  dt : ℚ
deriving DecidableEq

/-- The `system` argument accepted by `dlsim`/`dimpulse`/`dstep`: an `lti`
(continuous) instance, a `dlti` instance, or a raw coefficient tuple whose
last element is the sample period. -/
inductive SysArg where
  /-- A continuous-time (`lti`) instance. -/
  | cont (rep : SysRep)
  /-- A discrete-time (`dlti`) instance. -/
  | disc (s : DSys)
  /-- A 3-tuple `(num, den, dt)`. -/
  | tup3 (num den : List ℚ) (dt : ℚ)
  /-- A 4-tuple `(zeros, poles, gain, dt)`. -/
  | tup4 (zeros poles : List ℚ) (gain : ℚ) (dt : ℚ)
  /-- A 5-tuple `(A, B, C, D, dt)`. -/
  | tup5 (A B C D : Mat) (dt : ℚ)

/-- The `u` argument of `dlsim`: a 1-D sequence (single input) or a 2-D
array (rows = time steps, columns = inputs). -/
inductive UInput where
  | one (u : List ℚ)
  | two (u : List (List ℚ))

/-- `cupy.atleast_2d(u).T` applied to a 1-D input, identity on a 2-D one:
the rows-of-inputs form `dlsim` works with. -/
def UInput.toRows : UInput → List (List ℚ)
  | .one u => u.map (fun x => [x])
  | .two u => u

/-- Modelled from the spec: the external polynomial-from-roots primitive used
by the `zpk2tf` conversion routine (coefficients in descending order;
multiplying out `∏ (z - r)`). -/
def polyFromRoots (roots : List ℚ) : List ℚ :=
  roots.foldl
    (fun p r => List.zipWith (fun a b => a - r * b) (p ++ [0]) (0 :: p)) [1]

/-- Modelled from the spec: the external `zpk2tf` conversion routine
(`cupyx.scipy.signal._iir_filter_conversions`, not under `src/`): numerator
`gain · ∏ (z - zero)`, denominator `∏ (z - pole)`. -/
def zpk2tf (zeros poles : List ℚ) (gain : ℚ) : List ℚ × List ℚ :=
  ((polyFromRoots zeros).map (fun c => gain * c), polyFromRoots poles)

/-- Modelled from the spec: the external `tf2ss` conversion routine
(`cupyx.scipy.signal._iir_filter_conversions`, not under `src/`): the
controllable-companion-form realization of a SISO transfer function, after
left-padding the numerator to the denominator's length and normalizing by
the leading denominator coefficient. -/
def tf2ss (num den : List ℚ) : Mat × Mat × Mat × Mat :=
  let d0 := den.headD 1
  let nm := List.replicate (den.length - num.length) 0 ++ num
  let n := den.length - 1
  if n = 0 then
    ([], [], [], [[nm.headD 0 / d0]])
  else
    let a := (den.tail.map (fun c => -c / d0)) ::
      (List.range (n - 1)).map (fun i =>
        (List.range n).map (fun j => if j = i then (1 : ℚ) else 0))
    let b := (List.range n).map (fun i => [if i = 0 then (1 : ℚ) else 0])
    let c := [(List.range n).map (fun j =>
      nm.getD (j + 1) 0 / d0 - nm.headD 0 / d0 * (den.getD (j + 1) 0 / d0))]
    let d := [[nm.headD 0 / d0]]
    (a, b, c, d)

/-- The `_as_ss` normalization: a `StateSpace` payload is used as-is, the
other representations go through the (spec-modelled) conversion routines. -/
def SysRep.asSS : SysRep → Mat × Mat × Mat × Mat
  | .ss A B C D => (A, B, C, D)
  | .tf num den => tf2ss num den
  | .zpk z p k => tf2ss (zpk2tf z p k).1 (zpk2tf z p k).2

/-- Whether a representation is `StateSpace` (the `isinstance(system,
StateSpace)` test `dlsim` performs after tuple normalization). -/
def SysRep.isSS : SysRep → Bool
  | .ss _ _ _ _ => true
  | _ => false

/-- `cupy.linspace(start, stop, num)` over exact rationals (with the default
`endpoint=True`).  For `num = 1` the division by `num - 1 = 0` returns 0 in
`ℚ`, giving `[start]` exactly as `linspace` does. -/
def linspace (start stop : ℚ) (num : ℕ) : List ℚ :=
  (List.range num).map
    (fun (k : ℕ) => start + (stop - start) * (k : ℚ) / ((num : ℚ) - 1))

/-- `cupy.linspace(start, stop, num, endpoint=False)`: step `(stop-start)/num`. -/
def linspaceEF (start stop : ℚ) (num : ℕ) : List ℚ :=
  (List.range num).map
    (fun (k : ℕ) => start + (stop - start) * (k : ℚ) / (num : ℚ))

/-- Linear interpolation between two sample points (the degree-1 spline on
one knot interval), at query point `q`. -/
def lerp (t0 t1 : ℚ) (y0 y1 : List ℚ) (q : ℚ) : List ℚ :=
  List.zipWith (fun a b => a + (b - a) * ((q - t0) / (t1 - t0))) y0 y1

/-- Modelled from the spec: the external degree-1 interpolation primitive
(`make_interp_spline(t, u, k=1)` evaluated at one query point, from
`cupyx.scipy.interpolate`, not under `src/`): piecewise-linear interpolation
through the sample points `(ts i, ys i)`. -/
def interp1 : List ℚ → List (List ℚ) → ℚ → List ℚ
  | [], _, _ => []
  | _ :: _, [], _ => []
  | [_], y0 :: _, _ => y0
  | _ :: _ :: _, [y0], _ => y0
  | t0 :: t1 :: ts, y0 :: y1 :: ys, q =>
      if q ≤ t1 then lerp t0 t1 y0 y1 q else interp1 (t1 :: ts) (y1 :: ys) q

/-- One step of the `dlsim` recurrence: `A @ x + B @ u`. -/
def stepX (A B : Mat) (x u : List ℚ) : List ℚ := vecAdd (matVec A x) (matVec B u)

/-- One output of the `dlsim` recurrence: `C @ x + D @ u`. -/
def outY (C D : Mat) (x u : List ℚ) : List ℚ := vecAdd (matVec C x) (matVec D u)

/-- The state trajectory filled in by `dlsim`'s loop: one state per input
row, starting from `x0`, stepping with `stepX` (the source writes the same
values into a pre-allocated array). -/
def simStates (A B : Mat) (x0 : List ℚ) : List (List ℚ) → List (List ℚ)
  | [] => []
  | u0 :: rest => x0 :: simStates A B (stepX A B x0 u0) rest

/-- State at step `k` of the recurrence driven by input rows `u`. -/
def stateAt (A B : Mat) (x0 : List ℚ) (u : List (List ℚ)) : ℕ → List ℚ
  | 0 => x0
  | k + 1 => stepX A B (stateAt A B x0 u k) (u.getD k [])

/-- The value `dlsim` returns: the time grid, the output trajectory, and —
for `StateSpace` input only — the state trajectory. -/
structure DlsimRes where
  tout : List ℚ
  yout : List (List ℚ)
  xout : Option (List (List ℚ))
deriving DecidableEq

/-- Normalization of `dlsim`-style `system` arguments: a continuous instance
raises, a tuple is rebuilt through `dlti(*system[:-1], dt=system[-1])`
(arity 2 → `TransferFunction`, 3 → `ZerosPolesGain`, 4 → `StateSpace`). -/
def normalizeArg : SysArg → Except LtiErr DSys
  | .cont _ => .error .notDiscreteTime
  | .disc s => .ok s
  | .tup3 num den dt => .ok ⟨.tf num den, dt⟩
  | .tup4 z p k dt => .ok ⟨.zpk z p k, dt⟩
  | .tup5 A B C D dt => .ok ⟨.ss A B C D, dt⟩

/-- `dlsim(system, u, t, x0)`: simulate the output of a discrete-time system.
Translated from the source; array index/shape failures surface as the
corresponding `LtiErr`.  (With `t = none` the empty-input case reaches
`yout[out_samples - 1]` on a 0-row array, hence `indexError`; with `t`
given, `t[-1]` on an empty `t` and a non-positive number of samples fail the
same way.) -/
def dlsim (sys : SysArg) (u : UInput) (t : Option (List ℚ))
    (x0 : Option (List ℚ)) : Except LtiErr DlsimRes :=
  match normalizeArg sys with
  | .error e => .error e
  | .ok s =>
    let (A, B, C, D) := s.rep.asSS
    let u2 := u.toRows
    let st : Except LtiErr (ℕ × ℚ) :=
      match t with
      | none => .ok (u2.length, ((u2.length : ℚ) - 1) * s.dt)
      | some ts =>
        match ts.getLast? with
        | none => .error .indexError
        | some last => .ok ((Int.floor (last / s.dt) + 1).toNat, last)
    match st with
    | .error e => .error e
    | .ok (outSamples, stoptime) =>
      if outSamples = 0 then .error .indexError else
      let tout := linspace 0 stoptime outSamples
      let x0c : Except LtiErr (List ℚ) :=
        match x0 with
        | none => .ok (List.replicate A.length (0 : ℚ))
        | some v =>
          if v.length = A.length then .ok v else .error .valueError
      match x0c with
      | .error e => .error e
      | .ok x0v =>
        let u_dt :=
          match t with
          | none => u2
          | some ts => tout.map (fun q => interp1 ts u2 q)
        let xs := simStates A B x0v u_dt
        let ys := List.zipWith (fun x uu => outY C D x uu) xs u_dt
        .ok ⟨tout, ys, if s.rep.isSS then some xs else none⟩

deriving instance DecidableEq for Except

/-! ### Helper lemmas about lists and the simulation recurrence -/

theorem getD_zipWith {α β γ : Type} (f : α → β → γ) (xs : List α) (ys : List β)
    (i : ℕ) (dx : α) (dy : β) (dz : γ) (hx : i < xs.length) (hy : i < ys.length) :
    (List.zipWith f xs ys).getD i dz = f (xs.getD i dx) (ys.getD i dy) := by
  induction xs generalizing ys i with
  | nil => simp at hx
  | cons a as ih =>
    cases ys with
    | nil => simp at hy
    | cons b bs =>
      cases i with
      | zero => simp [List.getD]
      | succ j =>
        simp only [List.zipWith_cons_cons, List.getD_cons_succ]
        exact ih bs j (by simpa using hx) (by simpa using hy)

theorem length_simStates (A B : Mat) (x0 : List ℚ) (u : List (List ℚ)) :
    (simStates A B x0 u).length = u.length := by
  induction u generalizing x0 with
  | nil => rfl
  | cons u0 rest ih => simp [simStates, ih]

theorem simStates_getD (A B : Mat) (x0 : List ℚ) (u : List (List ℚ)) (k : ℕ)
    (hk : k < u.length) :
    (simStates A B x0 u).getD k [] = stateAt A B x0 u k := by
  induction u generalizing x0 k with
  | nil => simp at hk
  | cons u0 rest ih =>
    cases k with
    | zero => simp [simStates, stateAt]
    | succ j =>
      simp only [simStates, List.getD_cons_succ]
      rw [ih (stepX A B x0 u0) j (by simpa using hk)]
      clear ih hk
      induction j with
      | zero => simp [stateAt, List.getD]
      | succ m ihm => simp only [stateAt, List.getD_cons_succ] at ihm ⊢; rw [ihm]

/-! ### C1: the dlsim recurrence and the concrete SISO scenario -/

unseal Rat.add Rat.mul Rat.sub Rat.inv in
/-- C1: for every discrete `StateSpace` system, `dlsim` computes the state
and output trajectories by `x[i+1] = A·x[i] + B·u[i]` and
`y[i] = C·x[i] + D·u[i]` for `i` up to `out_samples - 2`, and the final
output `y[out_samples-1] = C·x[out_samples-1] + D·u[out_samples-1]` with no
further state update (the state trajectory has exactly `out_samples`
entries); concretely, the system `A=[[0.5]], B=[[1]], C=[[1]], D=[[0]],
dt=1` driven by `u=[1,0,0,0]` from `x0=[0]` has states `[0,1,0.5,0.25]` and
outputs `[0,1,0.5,0.25]`. -/
theorem dlsim_recurrence_and_scenario :
    (∀ (A B C D : Mat) (dt : ℚ) (u : List (List ℚ)) (x0 : List ℚ) (r : DlsimRes),
      dlsim (.disc ⟨.ss A B C D, dt⟩) (.two u) none (some x0) = .ok r →
      ∃ xs, r.xout = some xs ∧ xs.length = u.length ∧
        xs.getD 0 [] = x0 ∧
        (∀ i, i + 1 < u.length →
          xs.getD (i + 1) [] =
            vecAdd (matVec A (xs.getD i [])) (matVec B (u.getD i []))) ∧
        (∀ i, i < u.length →
          r.yout.getD i [] =
            vecAdd (matVec C (xs.getD i [])) (matVec D (u.getD i [])))) ∧
    dlsim (.disc ⟨.ss [[1/2]] [[1]] [[1]] [[0]], 1⟩) (.one [1, 0, 0, 0]) none
        (some [0]) =
      .ok ⟨[0, 1, 2, 3], [[0], [1], [1/2], [1/4]],
           some [[0], [1], [1/2], [1/4]]⟩ := by
  constructor
  · intro A B C D dt u x0 r h
    unfold dlsim normalizeArg at h
    simp only [SysRep.asSS, SysRep.isSS, UInput.toRows, Except.bind] at h
    by_cases hu : u.length = 0
    · simp [hu] at h
    · simp only [hu, if_false] at h
      by_cases hx : x0.length = A.length
      · simp only [hx, if_true] at h
        cases h
        refine ⟨simStates A B x0 u, rfl, length_simStates A B x0 u, ?_, ?_, ?_⟩
        · rw [simStates_getD A B x0 u 0 (Nat.pos_of_ne_zero hu)]; rfl
        · intro i hi
          rw [simStates_getD A B x0 u (i + 1) hi,
              simStates_getD A B x0 u i (Nat.lt_of_succ_lt hi)]
          rfl
        · intro i hi
          rw [getD_zipWith (fun x uu => outY C D x uu) (simStates A B x0 u) u i
                [] [] [] (by rw [length_simStates]; exact hi) hi]
          rfl
      · simp [hx] at h
  · decide

unseal Rat.add Rat.mul Rat.sub Rat.inv in
/-- Witness for C1: the recurrence theorem instantiated at the concrete
scenario system. -/
theorem dlsim_recurrence_and_scenario_witness :
    ∃ xs,
      (DlsimRes.mk [0, 1, 2, 3] [[0], [1], [1/2], [1/4]]
        (some [[0], [1], [1/2], [1/4]])).xout = some xs ∧
      xs.length = [[(1:ℚ)], [0], [0], [0]].length ∧
      xs.getD 0 [] = [0] ∧
      (∀ i, i + 1 < [[(1:ℚ)], [0], [0], [0]].length →
        xs.getD (i + 1) [] =
          vecAdd (matVec [[1/2]] (xs.getD i []))
            (matVec [[1]] ([[(1:ℚ)], [0], [0], [0]].getD i []))) ∧
      (∀ i, i < [[(1:ℚ)], [0], [0], [0]].length →
        (DlsimRes.mk [0, 1, 2, 3] [[0], [1], [1/2], [1/4]]
          (some [[0], [1], [1/2], [1/4]])).yout.getD i [] =
          vecAdd (matVec [[1]] (xs.getD i []))
            (matVec [[0]] ([[(1:ℚ)], [0], [0], [0]].getD i []))) :=
  dlsim_recurrence_and_scenario.1 [[1/2]] [[1]] [[1]] [[0]] 1
    [[1], [0], [0], [0]] [0] _ (by decide)

/-! ### C3: output-sample count and the output time grid -/

theorem length_linspace (a b : ℚ) (n : ℕ) : (linspace a b n).length = n := by
  simp [linspace]

/-- With `stop = (n-1)·dt`, `linspace` produces exactly the `dt`-grid. -/
theorem linspace_dt_grid (dt : ℚ) (n : ℕ) :
    linspace 0 (((n : ℚ) - 1) * dt) n =
      (List.range n).map (fun (k : ℕ) => (k : ℚ) * dt) := by
  unfold linspace
  refine List.map_congr_left (fun k hk => ?_)
  rcases eq_or_ne ((n : ℚ) - 1) 0 with h | h
  · have hn : (n : ℚ) = 1 := by linarith [sub_eq_zero.mp h]
    have : n = 1 := by exact_mod_cast hn
    subst this
    have : k = 0 := by simpa using hk
    subst this
    simp
  · rw [zero_add, sub_zero, mul_comm ((n : ℚ) - 1) dt, mul_assoc,
        mul_div_assoc, mul_comm ((n : ℚ) - 1) (k : ℚ), mul_div_assoc,
        div_self h, mul_one, mul_comm dt (k : ℚ)]

unseal Rat.add Rat.mul Rat.sub Rat.inv in
/-- C3 counterexample: with `t` supplied and `t[-1] = 5/2` not a multiple of
`dt = 1`, the number of samples is `⌊5/2⌋ + 1 = 3` but the returned time
vector is `[0, 5/4, 5/2]`, not the claimed grid `[0·dt, 1·dt, 2·dt] =
[0, 1, 2]` from 0 to `(out_samples-1)·dt`. -/
theorem dlsim_tout_counterexample :
    dlsim (.disc ⟨.ss [[1/2]] [[1]] [[1]] [[0]], 1⟩) (.two [[1], [1], [1]])
        (some [0, 1, 5/2]) none =
      .ok ⟨[0, 5/4, 5/2], [[0], [1], [3/2]], some [[0], [1], [3/2]]⟩ ∧
    ([0, 5/4, 5/2] : List ℚ) ≠
      (List.range 3).map (fun (k : ℕ) => (k : ℚ) * 1) := by
  constructor
  · decide
  · decide

/-- C3 (amended): when `t` is omitted the number of output samples is
`len(u)` and the time vector is the evenly spaced `dt`-grid from 0 to
`(out_samples-1)·dt`; when `t` is supplied the number of output samples is
`⌊t[-1]/dt⌋ + 1` and the time vector is evenly spaced from 0 to `t[-1]`
(which agrees with the `dt`-grid only when `t[-1]` is a multiple of `dt`). -/
theorem dlsim_samples_and_grid :
    (∀ (rep : SysRep) (dt : ℚ) (u : UInput) (x0 : Option (List ℚ))
        (r : DlsimRes),
      dlsim (.disc ⟨rep, dt⟩) u none x0 = .ok r →
      r.tout.length = u.toRows.length ∧
      r.tout = (List.range u.toRows.length).map (fun (k : ℕ) => (k : ℚ) * dt)) ∧
    (∀ (rep : SysRep) (dt : ℚ) (u : UInput) (ts : List ℚ)
        (x0 : Option (List ℚ)) (r : DlsimRes),
      dlsim (.disc ⟨rep, dt⟩) u (some ts) x0 = .ok r →
      ∃ last, ts.getLast? = some last ∧
        r.tout.length = (Int.floor (last / dt) + 1).toNat ∧
        r.tout = linspace 0 last ((Int.floor (last / dt) + 1).toNat)) := by
  constructor
  · intro rep dt u x0 r h
    unfold dlsim normalizeArg at h
    dsimp only at h
    rcases hA : rep.asSS with ⟨A, B, C, D⟩
    rw [hA] at h
    by_cases hu : u.toRows.length = 0
    · simp [hu] at h
    · simp only [hu, if_false] at h
      rcases x0 with _ | v
      · simp only at h
        cases h
        exact ⟨length_linspace _ _ _, linspace_dt_grid dt u.toRows.length⟩
      · by_cases hx : v.length = A.length
        · simp only [hx, if_true] at h
          cases h
          exact ⟨length_linspace _ _ _, linspace_dt_grid dt u.toRows.length⟩
        · simp [hx] at h
  · intro rep dt u ts x0 r h
    unfold dlsim normalizeArg at h
    dsimp only at h
    rcases hA : rep.asSS with ⟨A, B, C, D⟩
    rw [hA] at h
    rcases hlast : ts.getLast? with _ | last
    · rw [hlast] at h; simp at h
    · rw [hlast] at h
      by_cases hm : (Int.floor (last / dt) + 1).toNat = 0
      · simp [hm] at h
      · simp only [hm, if_false] at h
        refine ⟨last, rfl, ?_⟩
        rcases x0 with _ | v
        · simp only at h
          cases h
          exact ⟨length_linspace _ _ _, rfl⟩
        · by_cases hx : v.length = A.length
          · simp only [hx, if_true] at h
            cases h
            exact ⟨length_linspace _ _ _, rfl⟩
          · simp [hx] at h

unseal Rat.add Rat.mul Rat.sub Rat.inv in
/-- Witness for C3: both halves of the amended statement instantiated at
concrete calls. -/
theorem dlsim_samples_and_grid_witness :
    ((DlsimRes.mk [0, 1, 2, 3] [[0], [1], [1/2], [1/4]]
        (some [[0], [1], [1/2], [1/4]])).tout.length =
      (UInput.one [1, 0, 0, 0]).toRows.length ∧
      (DlsimRes.mk [0, 1, 2, 3] [[0], [1], [1/2], [1/4]]
        (some [[0], [1], [1/2], [1/4]])).tout =
        (List.range (UInput.one [1, 0, 0, 0]).toRows.length).map
          (fun (k : ℕ) => (k : ℚ) * 1)) ∧
    (∃ last, ([0, 1, 5/2] : List ℚ).getLast? = some last ∧
      (DlsimRes.mk [0, 5/4, 5/2] [[0], [1], [3/2]]
        (some [[0], [1], [3/2]])).tout.length =
        (Int.floor (last / 1) + 1).toNat ∧
      (DlsimRes.mk [0, 5/4, 5/2] [[0], [1], [3/2]]
        (some [[0], [1], [3/2]])).tout =
        linspace 0 last ((Int.floor (last / 1) + 1).toNat)) :=
  ⟨dlsim_samples_and_grid.1 (.ss [[1/2]] [[1]] [[1]] [[0]]) 1
      (.one [1, 0, 0, 0]) (some [0]) _ (by decide),
   dlsim_samples_and_grid.2 (.ss [[1/2]] [[1]] [[1]] [[0]]) 1
      (.two [[1], [1], [1]]) [0, 1, 5/2] none _ (by decide)⟩

/-! ### C9: continuous systems are rejected -/

/-- C9: handing `dlsim` a continuous-time (`lti`) system yields the
`NotDiscreteTime` error (the `AttributeError` of the source) and nothing
else — no simulation output of any kind is produced. -/
theorem dlsim_rejects_continuous (rep : SysRep) (u : UInput)
    (t : Option (List ℚ)) (x0 : Option (List ℚ)) :
    dlsim (.cont rep) u t x0 = .error .notDiscreteTime := rfl

/-! ### C7 and C10: when the state trajectory is returned -/

/-- Shared helper: a successful `dlsim` run attaches the state trajectory
exactly when the normalized system's representation is `StateSpace`. -/
theorem dlsim_ok_xout_isSS (rep : SysRep) (dt : ℚ) (u : UInput)
    (t : Option (List ℚ)) (x0 : Option (List ℚ)) (r : DlsimRes)
    (h : dlsim (.disc ⟨rep, dt⟩) u t x0 = .ok r) :
    r.xout.isSome = rep.isSS := by
  unfold dlsim normalizeArg at h
  dsimp only at h
  rcases hA : rep.asSS with ⟨A, B, C, D⟩
  rw [hA] at h
  repeat' split at h
  all_goals cases h
  all_goals simp [*]

/-- C7: a successful `dlsim` call on a discrete system instance returns the
state trajectory as a third component exactly when the instance is a
`StateSpace` system; for `TransferFunction` and `ZerosPolesGain` instances
only the pair `(t_out, y)` comes back. -/
theorem dlsim_result_arity (rep : SysRep) (dt : ℚ) (u : UInput)
    (t : Option (List ℚ)) (x0 : Option (List ℚ)) (r : DlsimRes)
    (h : dlsim (.disc ⟨rep, dt⟩) u t x0 = .ok r) :
    (r.xout.isSome ↔ ∃ A B C D, rep = .ss A B C D) := by
  rw [dlsim_ok_xout_isSS rep dt u t x0 r h]
  cases rep <;> simp [SysRep.isSS]

unseal Rat.add Rat.mul Rat.sub Rat.inv in
/-- Witness for C7: the arity theorem instantiated at a concrete
`StateSpace` run. -/
theorem dlsim_result_arity_witness :
    (DlsimRes.mk [0, 1] [[0], [1]] (some [[0], [1]])).xout.isSome ↔
      ∃ A B C D, SysRep.ss [[1/2]] [[1]] [[1]] [[0]] = .ss A B C D :=
  dlsim_result_arity (.ss [[1/2]] [[1]] [[1]] [[0]]) 1 (.one [1, 0]) none none
    _ (by decide)

/-- C10: `dlsim` on a raw 5-tuple `(A, B, C, D, dt)` returns the state
trajectory as a third element (the tuple is normalized to a discrete
`StateSpace` before the `isinstance(system, StateSpace)` check), whereas
3-tuples `(num, den, dt)` and 4-tuples `(zeros, poles, gain, dt)` yield no
state trajectory. -/
theorem dlsim_tuple_arity :
    (∀ (A B C D : Mat) (dt : ℚ) (u : UInput) (t : Option (List ℚ))
        (x0 : Option (List ℚ)) (r : DlsimRes),
      dlsim (.tup5 A B C D dt) u t x0 = .ok r → r.xout.isSome) ∧
    (∀ (num den : List ℚ) (dt : ℚ) (u : UInput) (t : Option (List ℚ))
        (x0 : Option (List ℚ)) (r : DlsimRes),
      dlsim (.tup3 num den dt) u t x0 = .ok r → r.xout = none) ∧
    (∀ (zeros poles : List ℚ) (gain dt : ℚ) (u : UInput)
        (t : Option (List ℚ)) (x0 : Option (List ℚ)) (r : DlsimRes),
      dlsim (.tup4 zeros poles gain dt) u t x0 = .ok r → r.xout = none) := by
  refine ⟨?_, ?_, ?_⟩
  · intro A B C D dt u t x0 r h
    have hx := dlsim_ok_xout_isSS (.ss A B C D) dt u t x0 r h
    rw [hx]; rfl
  · intro num den dt u t x0 r h
    have hx := dlsim_ok_xout_isSS (.tf num den) dt u t x0 r h
    cases he : r.xout with
    | none => rfl
    | some v => rw [he] at hx; simp [SysRep.isSS] at hx
  · intro zeros poles gain dt u t x0 r h
    have hx := dlsim_ok_xout_isSS (.zpk zeros poles gain) dt u t x0 r h
    cases he : r.xout with
    | none => rfl
    | some v => rw [he] at hx; simp [SysRep.isSS] at hx

unseal Rat.add Rat.mul Rat.sub Rat.inv in
/-- Witness for C10: the three tuple arities instantiated at concrete
calls (the 3- and 4-tuples describe the same system `1/(z - 0.5)`). -/
theorem dlsim_tuple_arity_witness :
    ((DlsimRes.mk [0, 1] [[0], [1]] (some [[0], [1]])).xout.isSome : Prop) ∧
    (DlsimRes.mk [0, 1] [[0], [1]] none).xout = none ∧
    (DlsimRes.mk [0, 1] [[0], [1]] none).xout = none :=
  ⟨dlsim_tuple_arity.1 [[1/2]] [[1]] [[1]] [[0]] 1 (.one [1, 0]) none none _
      (by decide),
   dlsim_tuple_arity.2.1 [1] [1, -(1/2)] 1 (.one [1, 0]) none none _
      (by decide),
   dlsim_tuple_arity.2.2 [] [1/2] 1 1 (.one [1, 0]) none none _ (by decide)⟩

/-! ### C6: coefficient restatement and the DC frequency response -/

/-- `TransferFunction._z_to_zinv`: change a transfer function from the
variable `z` (descending powers) to `z⁻¹` (ascending powers) by
left-padding the shorter coefficient list with zeros (`diff` is a Python
`int`, so it may be negative). -/
def TransferFunction.z_to_zinv (num den : List ℚ) : List ℚ × List ℚ :=
  let diff : ℤ := (num.length : ℤ) - den.length
  if 0 < diff then (num, List.replicate diff.toNat 0 ++ den)
  else if diff < 0 then (List.replicate (-diff).toNat 0 ++ num, den)
  else (num, den)

/-- Ascending-power polynomial evaluation over `ℂ` (Horner form):
`p₀ + z·(p₁ + z·(…))`. -/
noncomputable def polyEvalAsc : List ℚ → ℂ → ℂ
  | [], _ => 0
  | c :: cs, z => (c : ℂ) + z * polyEvalAsc cs z

/-- Modelled from the spec: the external frequency evaluator `freqz`
(`cupyx.scipy.signal._filter_design`, not under `src/`) at a single
frequency `w` (radians/sample): with coefficients given in ascending powers
of `z⁻¹`, the response is `num(e^{-iw}) / den(e^{-iw})`. -/
noncomputable def freqzAt (num den : List ℚ) (w : ℝ) : ℂ :=
  polyEvalAsc num (Complex.exp (-(Complex.I * (w : ℂ)))) /
    polyEvalAsc den (Complex.exp (-(Complex.I * (w : ℂ))))

/-- The `TransferFunction` branch of `dfreqresp`, evaluated at one
frequency: restate `num`/`den` through `_z_to_zinv`, then delegate to the
frequency evaluator. -/
noncomputable def dfreqrespTFAt (num den : List ℚ) (w : ℝ) : ℂ :=
  freqzAt (TransferFunction.z_to_zinv num den).1
    (TransferFunction.z_to_zinv num den).2 w

unseal Rat.add Rat.mul Rat.sub Rat.inv in
/-- C6: `_z_to_zinv` zero-pads the shorter of `num`/`den` on the left so
both reach the same length (`max` of the two), and `dfreqresp` evaluates
only the restated coefficients; consequently the response of
`num=[1], den=[1,-0.5], dt=1` at `w = 0` is `1/(1-0.5) = 2`. -/
theorem z_to_zinv_pads_and_dc_response :
    (∀ num den : List ℚ,
      TransferFunction.z_to_zinv num den =
        (List.replicate (den.length - num.length) 0 ++ num,
         List.replicate (num.length - den.length) 0 ++ den) ∧
      (TransferFunction.z_to_zinv num den).1.length =
        max num.length den.length ∧
      (TransferFunction.z_to_zinv num den).2.length =
        max num.length den.length) ∧
    dfreqrespTFAt [1] [1, -(1/2)] 0 = 2 := by
  have hpad : ∀ num den : List ℚ,
      TransferFunction.z_to_zinv num den =
        (List.replicate (den.length - num.length) 0 ++ num,
         List.replicate (num.length - den.length) 0 ++ den) := by
    intro num den
    unfold TransferFunction.z_to_zinv
    rcases lt_trichotomy ((num.length : ℤ) - den.length) 0 with h | h | h
    · rw [if_neg (by omega), if_pos h]
      have h1 : (-((num.length : ℤ) - den.length)).toNat =
          den.length - num.length := by omega
      have h2 : num.length - den.length = 0 := by omega
      rw [h1, h2]
      simp
    · rw [if_neg (by omega), if_neg (by omega)]
      have h1 : den.length - num.length = 0 := by omega
      have h2 : num.length - den.length = 0 := by omega
      rw [h1, h2]
      simp
    · rw [if_pos h]
      have h1 : ((num.length : ℤ) - den.length).toNat =
          num.length - den.length := by omega
      have h2 : den.length - num.length = 0 := by omega
      rw [h1, h2]
      simp
  refine ⟨fun num den => ⟨hpad num den, ?_, ?_⟩, ?_⟩
  · rw [hpad num den]
    simp only [List.length_append, List.length_replicate]
    omega
  · rw [hpad num den]
    simp only [List.length_append, List.length_replicate]
    omega
  · have hz : TransferFunction.z_to_zinv [1] [1, -(1/2)] =
        ([0, 1], [1, -(1/2)]) := by decide
    unfold dfreqrespTFAt
    rw [hz]
    simp only [freqzAt, polyEvalAsc, Complex.ofReal_zero, mul_zero, neg_zero,
      Complex.exp_zero]
    push_cast
    norm_num

/-! ### Entry and shape lemmas for the block-matrix constructions -/

theorem IsMat.row_length {M : Mat} {m n : ℕ} (h : IsMat M m n) (i : ℕ)
    (hi : i < m) : (M.getD i []).length = n := by
  refine h.2 _ ?_
  have hlen : i < M.length := by rw [h.1]; exact hi
  rw [List.getD_eq_getElem M [] hlen]
  exact List.getElem_mem hlen

theorem IsMat.width_eq {M : Mat} {m n : ℕ} (h : IsMat M m n) (hm : 0 < m) :
    width M = n := by
  have h0 := h.row_length 0 hm
  cases M with
  | nil =>
    have hm0 : m = 0 := by simpa using h.1.symm
    exact absurd hm (by omega)
  | cons r rs => simpa [width, List.getD] using h0

theorem isMat_zerosMat (m n : ℕ) : IsMat (zerosMat m n) m n := by
  constructor
  · simp [zerosMat]
  · intro row hrow
    rw [List.eq_of_mem_replicate hrow]
    simp

theorem entry_zerosMat (m n i j : ℕ) : entry (zerosMat m n) i j = 0 := by
  unfold entry zerosMat
  rcases lt_or_ge i m with h | h
  · rw [List.getD_eq_getElem _ [] (by simpa using h), List.getElem_replicate]
    rcases lt_or_ge j n with h' | h'
    · rw [List.getD_eq_getElem _ 0 (by simpa using h'), List.getElem_replicate]
    · rw [List.getD_eq_default _ 0 (by simpa using h')]
  · rw [List.getD_eq_default _ [] (by simpa using h)]
    simp

theorem mem_zipWith_split {α β γ : Type} {f : α → β → γ} {as : List α}
    {bs : List β} {c : γ} (h : c ∈ List.zipWith f as bs) :
    ∃ a b, a ∈ as ∧ b ∈ bs ∧ c = f a b := by
  induction as generalizing bs with
  | nil => simp at h
  | cons a as ih =>
    cases bs with
    | nil => simp at h
    | cons b bs =>
      rw [List.zipWith_cons_cons, List.mem_cons] at h
      rcases h with h | h
      · exact ⟨a, b, List.mem_cons_self a as, List.mem_cons_self b bs, h⟩
      · obtain ⟨a2, b2, ha, hb, hc⟩ := ih h
        exact ⟨a2, b2, List.mem_cons_of_mem _ ha, List.mem_cons_of_mem _ hb, hc⟩

theorem isMat_hstack {A B : Mat} {m n p : ℕ} (hA : IsMat A m n)
    (hB : IsMat B m p) : IsMat (hstack A B) m (n + p) := by
  constructor
  · simp [hstack, hA.1, hB.1]
  · intro row hrow
    obtain ⟨ra, rb, ha, hb, hrow⟩ := mem_zipWith_split hrow
    rw [hrow]
    simp [hA.2 _ ha, hB.2 _ hb]

theorem isMat_vstack {A B : Mat} {m m' n : ℕ} (hA : IsMat A m n)
    (hB : IsMat B m' n) : IsMat (vstack A B) (m + m') n := by
  constructor
  · simp [vstack, hA.1, hB.1]
  · intro row hrow
    rcases List.mem_append.mp hrow with h | h
    · exact hA.2 _ h
    · exact hB.2 _ h

theorem isMat_matMul {A : Mat} {m n : ℕ} (hA : IsMat A m n) (B : Mat) :
    IsMat (matMul A B) m (width B) := by
  constructor
  · simp [matMul, hA.1]
  · intro row hrow
    unfold matMul at hrow
    rw [List.mem_map] at hrow
    obtain ⟨r, _, hrow⟩ := hrow
    simp [← hrow]

theorem isMat_matAddSame {A B : Mat} {m n : ℕ} (hA : IsMat A m n)
    (hB : IsMat B m n) : IsMat (matAddSame A B) m n := by
  constructor
  · simp [matAddSame, hA.1, hB.1]
  · intro row hrow
    obtain ⟨ra, rb, ha, hb, hrow⟩ := mem_zipWith_split hrow
    rw [hrow]
    simp [vecAdd, hA.2 _ ha, hB.2 _ hb]

theorem isMat_block_diag {A B : Mat} {m n m' n' : ℕ} (hA : IsMat A m n)
    (hB : IsMat B m' n') (hm : 0 < m) (hm' : 0 < m') :
    IsMat (block_diag A B) (m + m') (n + n') := by
  unfold block_diag
  rw [hA.1, hB.1, hA.width_eq hm, hB.width_eq hm']
  exact isMat_vstack (isMat_hstack hA (isMat_zerosMat m n'))
    (isMat_hstack (isMat_zerosMat m' n) hB)

theorem entry_vstack (A B : Mat) {m n : ℕ} (hA : IsMat A m n) (i j : ℕ) :
    entry (vstack A B) i j =
      if i < m then entry A i j else entry B (i - m) j := by
  unfold entry vstack
  rcases lt_or_ge i m with h | h
  · rw [if_pos h, List.getD_append _ _ _ _ (by rw [hA.1]; exact h)]
  · rw [if_neg (not_lt.mpr h), List.getD_append_right _ _ _ _ (by rw [hA.1]; exact h), hA.1]

theorem entry_hstack {A B : Mat} {m n p : ℕ} (hA : IsMat A m n)
    (hB : IsMat B m p) (i j : ℕ) (hi : i < m) :
    entry (hstack A B) i j =
      if j < n then entry A i j else entry B i (j - n) := by
  unfold entry hstack
  have hrow : (List.zipWith (· ++ ·) A B).getD i [] =
      A.getD i [] ++ B.getD i [] :=
    getD_zipWith (· ++ ·) A B i [] [] [] (by rw [hA.1]; exact hi)
      (by rw [hB.1]; exact hi)
  rw [hrow]
  rcases lt_or_ge j n with h | h
  · rw [if_pos h, List.getD_append _ _ _ _ (by rw [hA.row_length i hi]; exact h)]
  · rw [if_neg (not_lt.mpr h),
        List.getD_append_right _ _ _ _ (by rw [hA.row_length i hi]; exact h),
        hA.row_length i hi]

theorem entry_matMul (A B : Mat) (i j : ℕ) (hi : i < A.length)
    (hj : j < width B) :
    entry (matMul A B) i j = dotProd (A.getD i []) (col B j) := by
  unfold entry matMul
  rw [List.getD_eq_getElem _ [] (by simpa using hi), List.getElem_map,
      List.getD_eq_getElem _ 0 (by simpa using hj), List.getElem_map,
      List.getElem_range]
  congr 1
  rw [List.getD_eq_getElem _ [] hi]

theorem entry_matAddSame {A B : Mat} {m n : ℕ} (hA : IsMat A m n)
    (hB : IsMat B m n) (i j : ℕ) (hi : i < m) :
    entry (matAddSame A B) i j = entry A i j + entry B i j := by
  unfold entry matAddSame
  rw [getD_zipWith vecAdd A B i [] [] [] (by rw [hA.1]; exact hi)
      (by rw [hB.1]; exact hi)]
  unfold vecAdd
  rcases lt_or_ge j n with h | h
  · exact getD_zipWith _ _ _ j 0 0 0 (by rw [hA.row_length i hi]; exact h)
      (by rw [hB.row_length i hi]; exact h)
  · rw [List.getD_eq_default _ _ (by
        rw [List.length_zipWith, hA.row_length i hi, hB.row_length i hi]
        omega),
      List.getD_eq_default _ _ (by rw [hA.row_length i hi]; exact h),
      List.getD_eq_default _ _ (by rw [hB.row_length i hi]; exact h)]
    simp

/-! ### System algebra: `StateSpace.__mul__` and `StateSpace.__add__` -/

/-- A `StateSpace` instance for the algebra operators: the four matrices and
the time-domain tag (`none` = continuous `lti`, `some dt` = discrete
`dlti`). -/
structure SSSys where
  A : Mat
  B : Mat
  C : Mat
  D : Mat
  dt : Option ℚ
deriving DecidableEq

/-- The `other` operand of a binary `StateSpace` operator (after
`_check_binop_other`): another system, a Python scalar, or a 2-D array. -/
inductive Operand where
  | sys (s : SSSys)
  | scalar (c : ℚ)
  | mat (M : Mat)

/-- `cupy.hstack` with the backend's shape validation: the two blocks must
have the same number of rows.  (A `(0, n)` array degenerates to `[]` in the
list model, so its column count is not observable; the systems the claims
quantify over have at least one row in every stacked block.) -/
def hstackChk (A B : Mat) : Except LtiErr Mat :=
  if A.length = B.length then .ok (hstack A B)
  else .error .incompatibleDimensions

/-- `cupy.vstack` with the backend's shape validation: same column count. -/
def vstackChk (A B : Mat) : Except LtiErr Mat :=
  if width A = width B then .ok (vstack A B)
  else .error .incompatibleDimensions

/-- `cupy` matmul on 2-D operands with the backend's inner-dimension
check. -/
def matMulChk (A B : Mat) : Except LtiErr Mat :=
  if width A = B.length then .ok (matMul A B)
  else .error .incompatibleDimensions

/-- Elementwise array addition with the backend's shape check (general
broadcasting is not modelled: in every use the source makes of it the
shapes either agree or an earlier stacking step has already failed). -/
def matAddChk (A B : Mat) : Except LtiErr Mat :=
  if A.length = B.length ∧ width A = width B then .ok (matAddSame A B)
  else .error .incompatibleDimensions

/-- The series interconnection built by `StateSpace.__mul__` for a system
operand: `a = [[A1, B1·C2], [0, A2]]`, `b = [B1·D2; B2]`,
`c = [C1, D1·C2]`, `d = D1·D2`, with the backend operations in the
source's evaluation order.  (The final dtype promotion of the source is the
identity over `ℚ`.) -/
def seriesSS (s1 s2 : SSSys) : Except LtiErr SSSys :=
  match matMulChk s1.B s2.C with
  | .error e => .error e
  | .ok bc =>
    match hstackChk s1.A bc with
    | .error e => .error e
    | .ok top =>
      match hstackChk (zerosMat s2.A.length s1.A.length) s2.A with
      | .error e => .error e
      | .ok bot =>
        match vstackChk top bot with
        | .error e => .error e
        | .ok a =>
          match matMulChk s1.B s2.D with
          | .error e => .error e
          | .ok bd =>
            match vstackChk bd s2.B with
            | .error e => .error e
            | .ok b =>
              match matMulChk s1.D s2.C with
              | .error e => .error e
              | .ok dc =>
                match hstackChk s1.C dc with
                | .error e => .error e
                | .ok c =>
                  match matMulChk s1.D s2.D with
                  | .error e => .error e
                  | .ok d => .ok ⟨a, b, c, d, s1.dt⟩

/-- `StateSpace.__mul__` (post-multiplication).  A mixed
continuous/discrete pair returns `NotImplemented` (surfacing as a
`TypeError`); discrete systems with different `dt` raise `TypeError`; a
system operand builds the series interconnection.  A scalar operand reaches
`b = self.B @ other`, and `cupy` matmul rejects 0-d operands, so every
scalar operand raises `ValueError` (the parent scipy code uses `np.dot`
here, which would scale `B` and `D` instead).  A 2-D array operand is a
genuine matrix product on the input side. -/
def StateSpace.mul (s : SSSys) (o : Operand) : Except LtiErr SSSys :=
  match o with
  | .sys s2 =>
    if s.dt.isNone ≠ s2.dt.isNone then .error .incompatibleTimeDomain
    else if s.dt ≠ s2.dt then .error .differentDt
    else seriesSS s s2
  | .scalar _ => .error .matmulScalarOperand
  | .mat M =>
    match matMulChk s.B M with
    | .error e => .error e
    | .ok b =>
      match matMulChk s.D M with
      | .error e => .error e
      | .ok d => .ok ⟨s.A, b, s.C, d, s.dt⟩

/-- The parallel interconnection built by `StateSpace.__add__` for a system
operand: `a = block_diag(A1, A2)`, `b = [B1; B2]`, `c = [C1, C2]`,
`d = D1 + D2`, with the backend operations in the source's evaluation
order. -/
def parallelSS (s1 s2 : SSSys) : Except LtiErr SSSys :=
  let a := block_diag s1.A s2.A
  match vstackChk s1.B s2.B with
  | .error e => .error e
  | .ok b =>
    match hstackChk s1.C s2.C with
    | .error e => .error e
    | .ok c =>
      match matAddChk s1.D s2.D with
      | .error e => .error e
      | .ok d => .ok ⟨a, b, c, d, s1.dt⟩

/-- `StateSpace.__add__`.  A mixed continuous/discrete pair raises
`TypeError`, as do different sample periods; a system operand builds the
parallel interconnection; a scalar/matrix operand is first passed through
`atleast_2d` and accepted only if its shape equals `D.shape`, in which case
only the feedthrough changes (`D + other`). -/
def StateSpace.add (s : SSSys) (o : Operand) : Except LtiErr SSSys :=
  match o with
  | .sys s2 =>
    if s.dt.isNone ≠ s2.dt.isNone then .error .incompatibleTimeDomain
    else if s.dt ≠ s2.dt then .error .differentDt
    else parallelSS s s2
  | .scalar c =>
    if s.D.length = 1 ∧ width s.D = 1 then
      .ok ⟨s.A, s.B, s.C, matAddSame s.D [[c]], s.dt⟩
    else .error .incompatibleDimensions
  | .mat M =>
    if s.D.length = M.length ∧ width s.D = width M then
      .ok ⟨s.A, s.B, s.C, matAddSame s.D M, s.dt⟩
    else .error .incompatibleDimensions

/-! ### C2: series composition blocks, and the scalar-operand defect -/

/-- C2: for same-domain, same-`dt` `StateSpace` systems the series
composition `S1 * S2` has state matrix `[[A1, B1·C2], [0, A2]]`, input
matrix `[B1·D2; B2]`, output matrix `[C1, D1·C2]` and feedthrough `D1·D2`;
a matrix operand scales only the input side (`B·m`, `D·m`); but a scalar
operand — although the claim, the method's docstring and the scipy parent
all promise `B·m`, `D·m` — raises, because the source's `B @ other` uses
matmul, which rejects 0-d operands. -/
theorem series_blocks_and_operand_bug :
    (∀ (dt : ℚ) (n1 p1 q1 n2 p2 q2 : ℕ) (A1 B1 C1 D1 A2 B2 C2 D2 : Mat),
      IsMat A1 n1 n1 → IsMat B1 n1 p1 → IsMat C1 q1 n1 → IsMat D1 q1 p1 →
      IsMat A2 n2 n2 → IsMat B2 n2 p2 → IsMat C2 q2 n2 → IsMat D2 q2 p2 →
      0 < n1 → 0 < n2 → 0 < q1 → 0 < q2 → p1 = q2 →
      ∃ r : SSSys,
        StateSpace.mul ⟨A1, B1, C1, D1, some dt⟩
            (.sys ⟨A2, B2, C2, D2, some dt⟩) = .ok r ∧
        r.dt = some dt ∧
        IsMat r.A (n1 + n2) (n1 + n2) ∧
        (∀ i j, i < n1 + n2 →
          entry r.A i j =
            if i < n1 then
              (if j < n1 then entry A1 i j
               else entry (matMul B1 C2) i (j - n1))
            else
              (if j < n1 then 0 else entry A2 (i - n1) (j - n1))) ∧
        (∀ i j, entry r.B i j =
          if i < n1 then entry (matMul B1 D2) i j
          else entry B2 (i - n1) j) ∧
        (∀ i j, i < q1 →
          entry r.C i j =
            if j < n1 then entry C1 i j
            else entry (matMul D1 C2) i (j - n1)) ∧
        r.D = matMul D1 D2) ∧
    (∀ (s : SSSys) (M : Mat), width s.B = M.length → width s.D = M.length →
      StateSpace.mul s (.mat M) =
        .ok ⟨s.A, matMul s.B M, s.C, matMul s.D M, s.dt⟩) ∧
    (∀ (s : SSSys) (c : ℚ),
      StateSpace.mul s (.scalar c) = .error .matmulScalarOperand) := by
  refine ⟨?_, ?_, ?_⟩
  · intro dt n1 p1 q1 n2 p2 q2 A1 B1 C1 D1 A2 B2 C2 D2
      hA1 hB1 hC1 hD1 hA2 hB2 hC2 hD2 hn1 hn2 hq1 hq2 hpq
    have hbc : IsMat (matMul B1 C2) n1 n2 := by
      have h := isMat_matMul hB1 C2
      rwa [hC2.width_eq hq2] at h
    have htop : IsMat (hstack A1 (matMul B1 C2)) n1 (n1 + n2) :=
      isMat_hstack hA1 hbc
    have hbot : IsMat (hstack (zerosMat n2 n1) A2) n2 (n1 + n2) :=
      isMat_hstack (isMat_zerosMat n2 n1) hA2
    have ha : IsMat (vstack (hstack A1 (matMul B1 C2))
        (hstack (zerosMat n2 n1) A2)) (n1 + n2) (n1 + n2) :=
      isMat_vstack htop hbot
    have hbd : IsMat (matMul B1 D2) n1 p2 := by
      have h := isMat_matMul hB1 D2
      rwa [hD2.width_eq hq2] at h
    have hdc : IsMat (matMul D1 C2) q1 n2 := by
      have h := isMat_matMul hD1 C2
      rwa [hC2.width_eq hq2] at h
    have e1 : matMulChk B1 C2 = .ok (matMul B1 C2) := by
      unfold matMulChk
      rw [if_pos (by rw [hB1.width_eq hn1, hC2.1, hpq])]
    have e2 : hstackChk A1 (matMul B1 C2) = .ok (hstack A1 (matMul B1 C2)) := by
      unfold hstackChk
      rw [if_pos (by rw [hA1.1, hbc.1])]
    have e3 : hstackChk (zerosMat A2.length A1.length) A2 =
        .ok (hstack (zerosMat n2 n1) A2) := by
      unfold hstackChk
      rw [hA1.1, hA2.1, if_pos (by rw [(isMat_zerosMat n2 n1).1])]
    have e4 : vstackChk (hstack A1 (matMul B1 C2))
        (hstack (zerosMat n2 n1) A2) =
        .ok (vstack (hstack A1 (matMul B1 C2)) (hstack (zerosMat n2 n1) A2)) := by
      unfold vstackChk
      rw [if_pos (by rw [htop.width_eq hn1, hbot.width_eq hn2])]
    have e5 : matMulChk B1 D2 = .ok (matMul B1 D2) := by
      unfold matMulChk
      rw [if_pos (by rw [hB1.width_eq hn1, hD2.1, hpq])]
    have e6 : vstackChk (matMul B1 D2) B2 = .ok (vstack (matMul B1 D2) B2) := by
      unfold vstackChk
      rw [if_pos (by rw [hbd.width_eq hn1, hB2.width_eq hn2])]
    have e7 : matMulChk D1 C2 = .ok (matMul D1 C2) := by
      unfold matMulChk
      rw [if_pos (by rw [hD1.width_eq hq1, hC2.1, hpq])]
    have e8 : hstackChk C1 (matMul D1 C2) = .ok (hstack C1 (matMul D1 C2)) := by
      unfold hstackChk
      rw [if_pos (by rw [hC1.1, hdc.1])]
    have e9 : matMulChk D1 D2 = .ok (matMul D1 D2) := by
      unfold matMulChk
      rw [if_pos (by rw [hD1.width_eq hq1, hD2.1, hpq])]
    refine ⟨⟨vstack (hstack A1 (matMul B1 C2)) (hstack (zerosMat n2 n1) A2),
        vstack (matMul B1 D2) B2, hstack C1 (matMul D1 C2), matMul D1 D2,
        some dt⟩, ?_, rfl, ha, ?_, ?_, ?_, rfl⟩
    · unfold StateSpace.mul
      dsimp only
      rw [if_neg (by simp), if_neg (by simp)]
      unfold seriesSS
      dsimp only
      simp only [e1, e2, e3, e4, e5, e6, e7, e8, e9]
    · intro i j hi
      rw [entry_vstack _ _ htop i j]
      by_cases hin : i < n1
      · rw [if_pos hin, if_pos hin, entry_hstack hA1 hbc i j hin]
      · rw [if_neg hin, if_neg hin,
            entry_hstack (isMat_zerosMat n2 n1) hA2 (i - n1) j (by omega)]
        by_cases hj : j < n1
        · rw [if_pos hj, if_pos hj, entry_zerosMat]
        · rw [if_neg hj, if_neg hj]
    · intro i j
      rw [entry_vstack _ _ hbd i j]
    · intro i j hi
      rw [entry_hstack hC1 hdc i j hi]
  · intro s M h1 h2
    unfold StateSpace.mul matMulChk
    dsimp only
    rw [if_pos h1]
    dsimp only
    rw [if_pos h2]
  · intro s c
    rfl

/-- Witness for C2: the three parts instantiated at concrete systems (the
failing input of the scalar defect being `S * 2`). -/
theorem series_blocks_and_operand_bug_witness :
    (∃ r : SSSys,
      StateSpace.mul ⟨[[1]], [[1]], [[1]], [[1]], some 1⟩
          (.sys ⟨[[2]], [[1]], [[1]], [[1]], some 1⟩) = .ok r ∧
      r.D = matMul [[1]] [[1]]) ∧
    StateSpace.mul ⟨[[1]], [[1]], [[1]], [[1]], some 1⟩ (.mat [[3]]) =
      .ok ⟨[[1]], matMul [[1]] [[3]], [[1]], matMul [[1]] [[3]], some 1⟩ ∧
    StateSpace.mul ⟨[[1/2]], [[1]], [[1]], [[0]], some 1⟩ (.scalar 2) =
      .error .matmulScalarOperand := by
  refine ⟨?_, ?_, ?_⟩
  · obtain ⟨r, hok, _, _, _, _, _, hD⟩ :=
      series_blocks_and_operand_bug.1 1 1 1 1 1 1 1 [[1]] [[1]] [[1]] [[1]]
        [[2]] [[1]] [[1]] [[1]] (by decide) (by decide) (by decide) (by decide)
        (by decide) (by decide) (by decide) (by decide) (by decide) (by decide)
        (by decide) (by decide) rfl
    exact ⟨r, hok, hD⟩
  · exact series_blocks_and_operand_bug.2.1 ⟨[[1]], [[1]], [[1]], [[1]], some 1⟩
      [[3]] (by decide) (by decide)
  · exact series_blocks_and_operand_bug.2.2 ⟨[[1/2]], [[1]], [[1]], [[0]], some 1⟩ 2

/-! ### C8: parallel composition and feedthrough-shape checks -/

/-- C8: `StateSpace.__add__` accepts a scalar/matrix operand only when its
(`atleast_2d`) shape equals `D`'s shape, in which case only the feedthrough
changes (`D + other`, with `A`, `B`, `C` untouched); any shape mismatch —
scalar against a non-`(1,1)` `D`, a matrix of another shape, or another
`StateSpace` system whose `D` shape differs (such as `(2,1)` against
`(1,1)`) — fails with the `IncompatibleDimensions` error. -/
theorem parallel_feedthrough_shape_checks :
    (∀ (s : SSSys) (M : Mat),
      ¬(s.D.length = M.length ∧ width s.D = width M) →
      StateSpace.add s (.mat M) = .error .incompatibleDimensions) ∧
    (∀ (s : SSSys) (M : Mat),
      s.D.length = M.length → width s.D = width M →
      StateSpace.add s (.mat M) =
        .ok ⟨s.A, s.B, s.C, matAddSame s.D M, s.dt⟩) ∧
    (∀ (s : SSSys) (c : ℚ),
      ¬(s.D.length = 1 ∧ width s.D = 1) →
      StateSpace.add s (.scalar c) = .error .incompatibleDimensions) ∧
    (∀ (s : SSSys) (c : ℚ),
      s.D.length = 1 → width s.D = 1 →
      StateSpace.add s (.scalar c) =
        .ok ⟨s.A, s.B, s.C, matAddSame s.D [[c]], s.dt⟩) ∧
    (∀ (dt : ℚ) (n1 p1 q1 n2 p2 q2 : ℕ) (A1 B1 C1 D1 A2 B2 C2 D2 : Mat),
      IsMat A1 n1 n1 → IsMat B1 n1 p1 → IsMat C1 q1 n1 → IsMat D1 q1 p1 →
      IsMat A2 n2 n2 → IsMat B2 n2 p2 → IsMat C2 q2 n2 → IsMat D2 q2 p2 →
      0 < n1 → 0 < n2 → (q1, p1) ≠ (q2, p2) →
      StateSpace.add ⟨A1, B1, C1, D1, some dt⟩
          (.sys ⟨A2, B2, C2, D2, some dt⟩) =
        .error .incompatibleDimensions) := by
  refine ⟨?_, ?_, ?_, ?_, ?_⟩
  · intro s M h
    unfold StateSpace.add
    dsimp only
    rw [if_neg h]
  · intro s M h1 h2
    unfold StateSpace.add
    dsimp only
    rw [if_pos ⟨h1, h2⟩]
  · intro s c h
    unfold StateSpace.add
    dsimp only
    rw [if_neg h]
  · intro s c h1 h2
    unfold StateSpace.add
    dsimp only
    rw [if_pos ⟨h1, h2⟩]
  · intro dt n1 p1 q1 n2 p2 q2 A1 B1 C1 D1 A2 B2 C2 D2
      hA1 hB1 hC1 hD1 hA2 hB2 hC2 hD2 hn1 hn2 hne
    unfold StateSpace.add
    dsimp only
    rw [if_neg (by simp), if_neg (by simp)]
    unfold parallelSS
    dsimp only
    by_cases hp : p1 = p2
    · have hq : q1 ≠ q2 := by
        intro hq
        exact hne (by rw [hq, hp])
      have e1 : vstackChk B1 B2 = .ok (vstack B1 B2) := by
        unfold vstackChk
        rw [if_pos (by rw [hB1.width_eq hn1, hB2.width_eq hn2, hp])]
      rw [e1]
      dsimp only
      have e2 : hstackChk C1 C2 = .error .incompatibleDimensions := by
        unfold hstackChk
        rw [if_neg (by rw [hC1.1, hC2.1]; exact hq)]
      rw [e2]
    · have e1 : vstackChk B1 B2 = .error .incompatibleDimensions := by
        unfold vstackChk
        rw [if_neg (by rw [hB1.width_eq hn1, hB2.width_eq hn2]; exact hp)]
      rw [e1]

/-- Witness for C8: the five parts instantiated concretely — in particular
adding a system with `D` of shape `(2,1)` to one with `D` of shape `(1,1)`
fails. -/
theorem parallel_feedthrough_shape_checks_witness :
    StateSpace.add ⟨[[1]], [[1]], [[1]], [[1]], some 1⟩ (.mat [[1], [2]]) =
      .error .incompatibleDimensions ∧
    StateSpace.add ⟨[[1]], [[1]], [[1]], [[1]], some 1⟩ (.mat [[3]]) =
      .ok ⟨[[1]], [[1]], [[1]], matAddSame [[1]] [[3]], some 1⟩ ∧
    StateSpace.add ⟨[[1]], [[1]], [[1], [1]], [[1], [2]], some 1⟩
        (.scalar 5) = .error .incompatibleDimensions ∧
    StateSpace.add ⟨[[1]], [[1]], [[1]], [[1]], some 1⟩ (.scalar 5) =
      .ok ⟨[[1]], [[1]], [[1]], matAddSame [[1]] [[5]], some 1⟩ ∧
    StateSpace.add ⟨[[1]], [[1]], [[1], [1]], [[1], [2]], some 1⟩
        (.sys ⟨[[1]], [[1]], [[1]], [[1]], some 1⟩) =
      .error .incompatibleDimensions :=
  ⟨parallel_feedthrough_shape_checks.1 ⟨[[1]], [[1]], [[1]], [[1]], some 1⟩
      [[1], [2]] (by decide),
   parallel_feedthrough_shape_checks.2.1 ⟨[[1]], [[1]], [[1]], [[1]], some 1⟩
      [[3]] (by decide) (by decide),
   parallel_feedthrough_shape_checks.2.2.1
      ⟨[[1]], [[1]], [[1], [1]], [[1], [2]], some 1⟩ 5 (by decide),
   parallel_feedthrough_shape_checks.2.2.2.1
      ⟨[[1]], [[1]], [[1]], [[1]], some 1⟩ 5 (by decide) (by decide),
   parallel_feedthrough_shape_checks.2.2.2.2 1 1 1 2 1 1 1
      [[1]] [[1]] [[1], [1]] [[1], [2]] [[1]] [[1]] [[1]] [[1]]
      (by decide) (by decide) (by decide) (by decide) (by decide) (by decide)
      (by decide) (by decide) (by decide) (by decide) (by decide)⟩

/-! ### Vector algebra lemmas for the first-difference relation (C5) -/

theorem zipWith_const_left {α β : Type} :
    ∀ (xs : List α) (ys : List β), xs.length ≤ ys.length →
      List.zipWith (fun a _ => a) xs ys = xs
  | [], _, _ => rfl
  | _ :: _, [], h => by simp at h
  | x :: xs, y :: ys, h => by
      simp only [List.zipWith_cons_cons, List.cons.injEq, true_and]
      exact zipWith_const_left xs ys (by simpa using h)

theorem zipWith_const_right {α β : Type} :
    ∀ (xs : List α) (ys : List β), ys.length ≤ xs.length →
      List.zipWith (fun _ b => b) xs ys = ys
  | [], [], _ => rfl
  | [], _ :: _, h => by simp at h
  | _ :: _, [], _ => rfl
  | x :: xs, y :: ys, h => by
      simp only [List.zipWith_cons_cons, List.cons.injEq, true_and]
      exact zipWith_const_right xs ys (by simpa using h)

theorem zipWith_map_same {α β γ δ : Type} (f : β → γ → δ) (g : α → β)
    (h : α → γ) : ∀ (l : List α),
      List.zipWith f (l.map g) (l.map h) = l.map (fun r => f (g r) (h r))
  | [] => rfl
  | x :: xs => by
      simp only [List.map_cons, List.zipWith_cons_cons, List.cons.injEq,
        true_and]
      exact zipWith_map_same f g h xs

theorem vecSub_self : ∀ (l : List ℚ), vecSub l l = List.replicate l.length 0
  | [] => rfl
  | x :: xs => by
      simp only [vecSub, List.zipWith_cons_cons, sub_self, List.length_cons,
        List.replicate_succ, List.cons.injEq, true_and]
      exact vecSub_self xs

theorem vecSub_zeros_right : ∀ (l : List ℚ),
    vecSub l (List.replicate l.length 0) = l
  | [] => rfl
  | x :: xs => by
      simp only [vecSub, List.length_cons, List.replicate_succ,
        List.zipWith_cons_cons, sub_zero, List.cons.injEq, true_and]
      exact vecSub_zeros_right xs

theorem dotProd_zero_right : ∀ (r : List ℚ) (m : ℕ),
    dotProd r (List.replicate m 0) = 0
  | [], _ => rfl
  | _ :: _, 0 => rfl
  | x :: xs, m + 1 => by
      simp only [dotProd, List.replicate_succ, List.zipWith_cons_cons,
        mul_zero, List.sum_cons, zero_add]
      exact dotProd_zero_right xs m

theorem matVec_zeros (M : Mat) (m : ℕ) :
    matVec M (List.replicate m 0) = List.replicate M.length 0 := by
  unfold matVec
  rw [List.eq_replicate_iff]
  refine ⟨by simp, ?_⟩
  intro b hb
  rw [List.mem_map] at hb
  obtain ⟨r, _, hb⟩ := hb
  rw [← hb, dotProd_zero_right]

theorem dotProd_sub : ∀ (r x y : List ℚ), x.length = y.length →
    dotProd r (vecSub x y) = dotProd r x - dotProd r y
  | [], x, y, _ => by simp [dotProd, vecSub]
  | _ :: _, [], [], _ => by simp [dotProd, vecSub]
  | a :: r, b :: x, c :: y, h => by
      simp only [dotProd, vecSub, List.zipWith_cons_cons, List.sum_cons]
      have ih := dotProd_sub r x y (by simpa using h)
      simp only [dotProd, vecSub] at ih
      rw [ih]
      ring
  | _ :: _, [], _ :: _, h => by simp at h
  | _ :: _, _ :: _, [], h => by simp at h

theorem matVec_sub (M : Mat) (x y : List ℚ) (h : x.length = y.length) :
    matVec M (vecSub x y) = vecSub (matVec M x) (matVec M y) := by
  unfold matVec vecSub
  rw [zipWith_map_same]
  exact List.map_congr_left (fun r _ => dotProd_sub r x y h)

theorem vecAdd_sub_sub : ∀ (a b c d : List ℚ), a.length = b.length →
    c.length = d.length →
    vecAdd (vecSub a b) (vecSub c d) = vecSub (vecAdd a c) (vecAdd b d)
  | [], [], _, _, _, _ => by simp [vecAdd, vecSub]
  | a :: as, b :: bs, [], [], _, _ => by simp [vecAdd, vecSub]
  | a :: as, b :: bs, c :: cs, d :: ds, h1, h2 => by
      simp only [vecAdd, vecSub, List.zipWith_cons_cons, List.cons.injEq]
      refine ⟨by ring, ?_⟩
      have ih := vecAdd_sub_sub as bs cs ds (by simpa using h1)
        (by simpa using h2)
      simpa [vecAdd, vecSub] using ih
  | [], _ :: _, _, _, h1, _ => by simp at h1
  | _ :: _, [], _, _, h1, _ => by simp at h1
  | _ :: _, _ :: _, [], _ :: _, _, h2 => by simp at h2
  | _ :: _, _ :: _, _ :: _, [], _, h2 => by simp at h2

theorem length_stateAt {A B : Mat} {n : ℕ} (hA : A.length = n)
    (hB : B.length = n) (x0 : List ℚ) (hx0 : x0.length = n)
    (u : List (List ℚ)) : ∀ k, (stateAt A B x0 u k).length = n := by
  intro k
  induction k with
  | zero => exact hx0
  | succ j ih =>
    simp only [stateAt, stepX, vecAdd, List.length_zipWith, matVec,
      List.length_map, hA, hB, min_self]

/-! ### The degree-1 interpolant reproduces its sample points (C5) -/

theorem lerp_self_left (t0 t1 : ℚ) (y0 y1 : List ℚ)
    (h : y0.length ≤ y1.length) : lerp t0 t1 y0 y1 t0 = y0 := by
  unfold lerp
  simp only [sub_self, zero_div, mul_zero, add_zero]
  exact zipWith_const_left y0 y1 h

theorem lerp_self_right (t0 t1 : ℚ) (h01 : t0 ≠ t1) (y0 y1 : List ℚ)
    (h : y1.length ≤ y0.length) : lerp t0 t1 y0 y1 t1 = y1 := by
  unfold lerp
  have hd : (t1 - t0) / (t1 - t0) = 1 :=
    div_self (sub_ne_zero.mpr (Ne.symm h01))
  simp only [hd, mul_one]
  have he : (fun (a b : ℚ) => a + (b - a)) = fun _ b => b := by
    funext a b; ring
  rw [he]
  exact zipWith_const_right y0 y1 h

theorem interp1_node : ∀ (ts : List ℚ) (ys : List (List ℚ)) (p k : ℕ),
    ts.length = ys.length → (∀ r ∈ ys, r.length = p) →
    List.Pairwise (· < ·) ts → k < ts.length →
    interp1 ts ys (ts.getD k 0) = ys.getD k []
  | [], _, _, k, _, _, _, hk => by simp at hk
  | t0 :: ts, [], p, k, hlen, _, _, _ => by simp at hlen
  | [t0], y0 :: ys, p, 0, _, _, _, _ => by simp [interp1]
  | [t0], y0 :: ys, p, k + 1, hlen, _, _, hk => by
      simp at hk
  | t0 :: t1 :: ts, [y0], p, k, hlen, _, _, _ => by simp at hlen
  | t0 :: t1 :: ts, y0 :: y1 :: ys, p, 0, hlen, hrows, hsort, hk => by
      simp only [List.getD_cons_zero]
      unfold interp1
      rw [if_pos (le_of_lt (List.rel_of_pairwise_cons hsort
        (List.mem_cons_self t1 ts)))]
      exact lerp_self_left t0 t1 y0 y1 (by
        rw [hrows y0 (List.mem_cons_self _ _),
            hrows y1 (List.mem_cons_of_mem _ (List.mem_cons_self _ _))])
  | t0 :: t1 :: ts, y0 :: y1 :: ys, p, 1, hlen, hrows, hsort, hk => by
      simp only [List.getD_cons_succ, List.getD_cons_zero]
      unfold interp1
      rw [if_pos le_rfl]
      exact lerp_self_right t0 t1
        (ne_of_lt (List.rel_of_pairwise_cons hsort (List.mem_cons_self t1 ts)))
        y0 y1 (by
          rw [hrows y0 (List.mem_cons_self _ _),
              hrows y1 (List.mem_cons_of_mem _ (List.mem_cons_self _ _))])
  | t0 :: t1 :: ts, y0 :: y1 :: ys, p, m + 2, hlen, hrows, hsort, hk => by
      have hm : m < ts.length := by simpa using hk
      have hq : (t0 :: t1 :: ts).getD (m + 2) 0 = ts.getD m 0 := by simp
      rw [hq]
      have hmem : ts.getD m 0 ∈ ts := by
        rw [List.getD_eq_getElem _ _ hm]
        exact List.getElem_mem hm
      have ht1q : t1 < ts.getD m 0 :=
        List.rel_of_pairwise_cons (List.pairwise_cons.mp hsort).2
          hmem
      unfold interp1
      rw [if_neg (not_le.mpr ht1q)]
      have ih := interp1_node (t1 :: ts) (y1 :: ys) p (m + 1)
        (by simpa using hlen) (fun r hr => hrows r (List.mem_cons_of_mem _ hr))
        ((List.pairwise_cons.mp hsort).2) (by simpa using hm)
      simpa using ih

/-! ### Sample-grid lemmas (C5) -/

theorem linspaceEF_grid (dt : ℚ) (nn : ℕ) :
    linspaceEF 0 ((nn : ℚ) * dt) nn =
      (List.range nn).map (fun (k : ℕ) => (k : ℚ) * dt) := by
  unfold linspaceEF
  refine List.map_congr_left (fun k hk => ?_)
  rcases Nat.eq_zero_or_pos nn with h | h
  · subst h; simp at hk
  · have hnn : (nn : ℚ) ≠ 0 := Nat.cast_ne_zero.mpr (by omega)
    field_simp
    ring

theorem getLast?_map_range {α : Type} (f : ℕ → α) (nn : ℕ) (h : 0 < nn) :
    ((List.range nn).map f).getLast? = some (f (nn - 1)) := by
  rw [List.getLast?_eq_getElem?]
  simp only [List.length_map, List.length_range, List.getElem?_map,
    List.getElem?_range, Nat.sub_lt h Nat.one_pos, if_true]
  rfl

theorem getD_map_range {α : Type} (F : ℕ → α) (p i : ℕ) (d : α) (hi : i < p) :
    ((List.range p).map F).getD i d = F i := by
  rw [List.getD_eq_getElem _ _ (by simp [hi]), List.getElem_map,
      List.getElem_range]

theorem map_range_getD {α : Type} (l : List α) (d : α) :
    (List.range l.length).map (fun k => l.getD k d) = l := by
  refine List.ext_getElem (by simp) ?_
  intro i h1 h2
  rw [List.getElem_map, List.getElem_range, List.getD_eq_getElem l d h2]

theorem pairwise_grid (dt : ℚ) (hdt : 0 < dt) (nn : ℕ) :
    List.Pairwise (· < ·)
      ((List.range nn).map (fun (k : ℕ) => (k : ℚ) * dt)) := by
  rw [List.pairwise_map]
  exact (List.pairwise_lt_range nn).imp
    (fun hab => mul_lt_mul_of_pos_right (by exact_mod_cast hab) hdt)

/-- Running `dlsim` on a `StateSpace` instance with the canonical `dt`-grid
as the explicit `t`: the interpolation reproduces `u` at the grid nodes, so
the run reduces to the plain recurrence. -/
theorem dlsim_grid_eval (A B C D : Mat) (dt : ℚ) (hdt : 0 < dt) (nn : ℕ)
    (hnn : 0 < nn) (p : ℕ) (u : List (List ℚ)) (hu : u.length = nn)
    (hrows : ∀ r ∈ u, r.length = p) :
    dlsim (.disc ⟨.ss A B C D, dt⟩) (.two u)
        (some ((List.range nn).map (fun (k : ℕ) => (k : ℚ) * dt))) none =
      .ok ⟨(List.range nn).map (fun (k : ℕ) => (k : ℚ) * dt),
           List.zipWith (fun x uu => outY C D x uu)
             (simStates A B (List.replicate A.length 0) u) u,
           some (simStates A B (List.replicate A.length 0) u)⟩ := by
  unfold dlsim normalizeArg
  dsimp only [SysRep.asSS, SysRep.isSS, UInput.toRows]
  rw [getLast?_map_range _ nn hnn]
  dsimp only
  have hfl : Int.floor ((((nn - 1 : ℕ) : ℚ) * dt) / dt) = ((nn - 1 : ℕ) : ℤ) := by
    rw [mul_div_assoc, div_self (ne_of_gt hdt), mul_one, Int.floor_natCast]
  rw [hfl]
  have houtn : (((nn - 1 : ℕ) : ℤ) + 1).toNat = nn := by omega
  rw [houtn, if_neg (by omega)]
  have htout : linspace 0 (((nn - 1 : ℕ) : ℚ) * dt) nn =
      (List.range nn).map (fun (k : ℕ) => (k : ℚ) * dt) := by
    have hcast : ((nn - 1 : ℕ) : ℚ) = (nn : ℚ) - 1 := by
      rw [Nat.cast_sub (by omega)]
      simp
    rw [hcast, linspace_dt_grid]
  rw [htout]
  have hudt : ((List.range nn).map (fun (k : ℕ) => (k : ℚ) * dt)).map
      (fun qq => interp1 ((List.range nn).map (fun (k : ℕ) => (k : ℚ) * dt))
        u qq) = u := by
    rw [List.map_map]
    have hcongr : ∀ k ∈ List.range nn,
        ((fun qq => interp1
            ((List.range nn).map (fun (k : ℕ) => (k : ℚ) * dt)) u qq) ∘
          (fun (k : ℕ) => (k : ℚ) * dt)) k = u.getD k [] := by
      intro k hk
      have hk' : k < nn := List.mem_range.mp hk
      have hgd : ((List.range nn).map
          (fun (k : ℕ) => (k : ℚ) * dt)).getD k 0 = (k : ℚ) * dt := by
        rw [List.getD_eq_getElem _ _ (by simp [hk']), List.getElem_map,
            List.getElem_range]
      dsimp only [Function.comp]
      rw [← hgd]
      exact interp1_node _ u p k (by simp [hu]) hrows
        (pairwise_grid dt hdt nn) (by simp [hk'])
    rw [List.map_congr_left hcongr, ← hu]
    exact map_range_getD u []
  rw [hudt]
  rfl

/-! ### dimpulse and dstep -/

/-- The input array `dimpulse` builds for channel `i`: a `t.shape[0] × p`
zero array with a single 1 at `u[0, i]`. -/
def impulseU (nrows p i : ℕ) : List (List ℚ) :=
  (List.range nrows).map (fun r =>
    (List.range p).map (fun c => if r = 0 ∧ c = i then (1 : ℚ) else 0))

/-- The input array `dstep` builds for channel `i`: ones in column `i`,
zeros elsewhere. -/
def stepU (nrows p i : ℕ) : List (List ℚ) :=
  (List.range nrows).map (fun _ =>
    (List.range p).map (fun c => if c = i then (1 : ℚ) else 0))

/-- The per-channel loop of `dimpulse`/`dstep`: run the body for every
channel index, propagating the first raised error (as Python's exception
would). -/
def runChannels (f : ℕ → Except LtiErr DlsimRes) :
    List ℕ → Except LtiErr (List DlsimRes)
  | [] => .ok []
  | i :: rest =>
    match f i with
    | .error e => .error e
    | .ok r =>
      match runChannels f rest with
      | .error e => .error e
      | .ok rs => .ok (r :: rs)

/-- `dimpulse(system, x0, t, n)`: impulse response of a discrete-time
system, one `dlsim` run per input channel, each driven by a unit impulse at
sample 0 on that channel.  With zero input channels the Python loop never
binds its result variables, hence `nameError`. -/
def dimpulse (sys : SysArg) (x0 : Option (List ℚ)) (t : Option (List ℚ))
    (n : Option ℕ) : Except LtiErr (List ℚ × List (List (List ℚ))) :=
  match normalizeArg sys with
  | .error e => .error e
  | .ok s =>
    let (A, B, C, D) := s.rep.asSS
    let nn := n.getD 100
    let ts :=
      match t with
      | none => linspaceEF 0 ((nn : ℚ) * s.dt) nn
      | some tv => tv
    let p := width B
    if p = 0 then .error .nameError
    else
      match runChannels
          (fun i => dlsim (.disc ⟨.ss A B C D, s.dt⟩)
            (.two (impulseU ts.length p i)) (some ts) x0)
          (List.range p) with
      | .error e => .error e
      | .ok rs =>
        match rs.getLast? with
        | none => .error .nameError
        | some lastR => .ok (lastR.tout, rs.map (fun r => r.yout))

/-- `dstep(system, x0, t, n)`: step response of a discrete-time system;
identical to `dimpulse` except each channel's input is a sustained unit
step. -/
def dstep (sys : SysArg) (x0 : Option (List ℚ)) (t : Option (List ℚ))
    (n : Option ℕ) : Except LtiErr (List ℚ × List (List (List ℚ))) :=
  match normalizeArg sys with
  | .error e => .error e
  | .ok s =>
    let (A, B, C, D) := s.rep.asSS
    let nn := n.getD 100
    let ts :=
      match t with
      | none => linspaceEF 0 ((nn : ℚ) * s.dt) nn
      | some tv => tv
    let p := width B
    if p = 0 then .error .nameError
    else
      match runChannels
          (fun i => dlsim (.disc ⟨.ss A B C D, s.dt⟩)
            (.two (stepU ts.length p i)) (some ts) x0)
          (List.range p) with
      | .error e => .error e
      | .ok rs =>
        match rs.getLast? with
        | none => .error .nameError
        | some lastR => .ok (lastR.tout, rs.map (fun r => r.yout))

theorem runChannels_ok (f : ℕ → Except LtiErr DlsimRes) (g : ℕ → DlsimRes) :
    ∀ (l : List ℕ), (∀ a ∈ l, f a = .ok (g a)) →
      runChannels f l = .ok (l.map g)
  | [], _ => rfl
  | i :: rest, h => by
      unfold runChannels
      rw [h i (List.mem_cons_self i rest),
          runChannels_ok f g rest (fun a ha => h a (List.mem_cons_of_mem _ ha))]
      rfl

theorem impulseU_length (nrows p i : ℕ) : (impulseU nrows p i).length = nrows := by
  simp [impulseU]

theorem impulseU_rows (nrows p i : ℕ) :
    ∀ r ∈ impulseU nrows p i, r.length = p := by
  intro r hr
  rw [impulseU, List.mem_map] at hr
  obtain ⟨k, _, hr⟩ := hr
  simp [← hr]

theorem stepU_length (nrows p i : ℕ) : (stepU nrows p i).length = nrows := by
  simp [stepU]

theorem stepU_rows (nrows p i : ℕ) : ∀ r ∈ stepU nrows p i, r.length = p := by
  intro r hr
  rw [stepU, List.mem_map] at hr
  obtain ⟨k, _, hr⟩ := hr
  simp [← hr]

/-- The unit row the impulse and step inputs place on channel `i`. -/
theorem unitRow_length (p i : ℕ) :
    ((List.range p).map (fun c => if c = i then (1 : ℚ) else 0)).length = p := by
  simp

theorem impulseU_getD (nrows p i k : ℕ) (hk : k < nrows) :
    (impulseU nrows p i).getD k [] =
      if k = 0 then (List.range p).map (fun c => if c = i then (1 : ℚ) else 0)
      else List.replicate p 0 := by
  unfold impulseU
  rw [List.getD_eq_getElem _ _ (by simp [hk]), List.getElem_map,
      List.getElem_range]
  by_cases h0 : k = 0
  · simp [h0]
  · simp only [h0, if_false, false_and]
    rw [List.eq_replicate_iff]
    exact ⟨by simp, by intro b hb; obtain ⟨c, _, hb⟩ := List.mem_map.mp hb; simpa using hb.symm⟩

theorem stepU_getD (nrows p i k : ℕ) (hk : k < nrows) :
    (stepU nrows p i).getD k [] =
      (List.range p).map (fun c => if c = i then (1 : ℚ) else 0) := by
  unfold stepU
  rw [List.getD_eq_getElem _ _ (by simp [hk]), List.getElem_map]

/-- `dimpulse` on a `StateSpace` instance with default `t` and `x0`:
closed-form value. -/
theorem dimpulse_ss_eval (A B C D : Mat) {n p : ℕ} (dt : ℚ) (hdt : 0 < dt)
    (hB : IsMat B n p) (hn : 0 < n) (hp : 0 < p)
    (nn : ℕ) (hnn : 0 < nn) :
    dimpulse (.disc ⟨.ss A B C D, dt⟩) none none (some nn) =
      .ok ((List.range nn).map (fun (k : ℕ) => (k : ℚ) * dt),
           (List.range p).map (fun i =>
             List.zipWith (fun x uu => outY C D x uu)
               (simStates A B (List.replicate A.length 0) (impulseU nn p i))
               (impulseU nn p i))) := by
  unfold dimpulse normalizeArg
  dsimp only [SysRep.asSS, Option.getD]
  rw [hB.width_eq hn, if_neg (by omega), linspaceEF_grid dt nn]
  have hlen : ((List.range nn).map (fun (k : ℕ) => (k : ℚ) * dt)).length = nn := by
    simp
  rw [hlen]
  rw [runChannels_ok _
      (fun i => DlsimRes.mk ((List.range nn).map (fun (k : ℕ) => (k : ℚ) * dt))
        (List.zipWith (fun x uu => outY C D x uu)
          (simStates A B (List.replicate A.length 0) (impulseU nn p i))
          (impulseU nn p i))
        (some (simStates A B (List.replicate A.length 0) (impulseU nn p i))))
      (List.range p)
      (fun i _ => dlsim_grid_eval A B C D dt hdt nn hnn p (impulseU nn p i)
        (impulseU_length nn p i) (impulseU_rows nn p i))]
  dsimp only
  rw [getLast?_map_range _ p hp]
  dsimp only
  rw [List.map_map]
  rfl

/-- `dstep` on a `StateSpace` instance with default `t` and `x0`:
closed-form value. -/
theorem dstep_ss_eval (A B C D : Mat) {n p : ℕ} (dt : ℚ) (hdt : 0 < dt)
    (hB : IsMat B n p) (hn : 0 < n) (hp : 0 < p)
    (nn : ℕ) (hnn : 0 < nn) :
    dstep (.disc ⟨.ss A B C D, dt⟩) none none (some nn) =
      .ok ((List.range nn).map (fun (k : ℕ) => (k : ℚ) * dt),
           (List.range p).map (fun i =>
             List.zipWith (fun x uu => outY C D x uu)
               (simStates A B (List.replicate A.length 0) (stepU nn p i))
               (stepU nn p i))) := by
  unfold dstep normalizeArg
  dsimp only [SysRep.asSS, Option.getD]
  rw [hB.width_eq hn, if_neg (by omega), linspaceEF_grid dt nn]
  have hlen : ((List.range nn).map (fun (k : ℕ) => (k : ℚ) * dt)).length = nn := by
    simp
  rw [hlen]
  rw [runChannels_ok _
      (fun i => DlsimRes.mk ((List.range nn).map (fun (k : ℕ) => (k : ℚ) * dt))
        (List.zipWith (fun x uu => outY C D x uu)
          (simStates A B (List.replicate A.length 0) (stepU nn p i))
          (stepU nn p i))
        (some (simStates A B (List.replicate A.length 0) (stepU nn p i))))
      (List.range p)
      (fun i _ => dlsim_grid_eval A B C D dt hdt nn hnn p (stepU nn p i)
        (stepU_length nn p i) (stepU_rows nn p i))]
  dsimp only
  rw [getLast?_map_range _ p hp]
  dsimp only
  rw [List.map_map]
  rfl

/-! ### C5: the first-difference relation between dimpulse and dstep -/

theorem stateAt_zero (A B : Mat) (x0 : List ℚ) (u : List (List ℚ)) :
    stateAt A B x0 u 0 = x0 := rfl

theorem stateAt_succ (A B : Mat) (x0 : List ℚ) (u : List (List ℚ)) (k : ℕ) :
    stateAt A B x0 u (k + 1) =
      stepX A B (stateAt A B x0 u k) (u.getD k []) := rfl

theorem stepX_sub (A B : Mat) {n p : ℕ} (x x' : List ℚ) (hx : x.length = n)
    (hx' : x'.length = n) (u u' : List ℚ) (hu : u.length = p)
    (hu' : u'.length = p) :
    stepX A B (vecSub x x') (vecSub u u') =
      vecSub (stepX A B x u) (stepX A B x' u') := by
  unfold stepX
  rw [matVec_sub A x x' (by rw [hx, hx']), matVec_sub B u u' (by rw [hu, hu'])]
  exact vecAdd_sub_sub _ _ _ _ (by simp [matVec]) (by simp [matVec])

theorem outY_sub (C D : Mat) {n p : ℕ} (x x' : List ℚ) (hx : x.length = n)
    (hx' : x'.length = n) (u u' : List ℚ) (hu : u.length = p)
    (hu' : u'.length = p) :
    outY C D (vecSub x x') (vecSub u u') =
      vecSub (outY C D x u) (outY C D x' u') := by
  unfold outY
  rw [matVec_sub C x x' (by rw [hx, hx']), matVec_sub D u u' (by rw [hu, hu'])]
  exact vecAdd_sub_sub _ _ _ _ (by simp [matVec]) (by simp [matVec])

/-- The impulse-driven state trajectory is the first difference of the
step-driven one. -/
theorem impulse_step_state_diff (A B : Mat) {n p : ℕ} (hA : A.length = n)
    (hB : B.length = n) (i nn : ℕ) :
    ∀ k, k < nn →
      stateAt A B (List.replicate n 0) (impulseU nn p i) k =
        vecSub (stateAt A B (List.replicate n 0) (stepU nn p i) k)
          (if k = 0 then List.replicate n 0
           else stateAt A B (List.replicate n 0) (stepU nn p i) (k - 1)) := by
  have hxlen : ∀ m, (stateAt A B (List.replicate n 0) (stepU nn p i) m).length = n :=
    length_stateAt hA hB _ (by simp) _
  have hunit : ((List.range p).map
      (fun c => if c = i then (1 : ℚ) else 0)).length = p := unitRow_length p i
  intro k
  induction k with
  | zero =>
    intro _
    rw [if_pos rfl, stateAt_zero, stateAt_zero]
    have h := vecSub_self (List.replicate (n : ℕ) (0 : ℚ))
    rw [List.length_replicate] at h
    exact h.symm
  | succ k ih =>
    intro hk1
    have hk : k < nn := by omega
    by_cases h0 : k = 0
    · subst h0
      rw [if_neg (by omega), stateAt_succ, stateAt_succ, stateAt_zero,
          stateAt_zero, impulseU_getD nn p i 0 hk, stepU_getD nn p i 0 hk,
          if_pos rfl]
      have hlen : (stepX A B (List.replicate n 0)
          ((List.range p).map (fun c => if c = i then (1 : ℚ) else 0))).length
          = n := by
        simp [stepX, vecAdd, matVec, hA, hB]
      have h2 := vecSub_zeros_right (stepX A B (List.replicate n 0)
        ((List.range p).map (fun c => if c = i then (1 : ℚ) else 0)))
      rw [hlen] at h2
      exact h2.symm
    · rw [if_neg (by omega), stateAt_succ, stateAt_succ, ih hk,
          if_neg h0, impulseU_getD nn p i k hk, if_neg h0,
          stepU_getD nn p i k hk]
      have hrepl : (List.replicate p (0 : ℚ)) =
          vecSub ((List.range p).map (fun c => if c = i then (1 : ℚ) else 0))
            ((List.range p).map (fun c => if c = i then (1 : ℚ) else 0)) := by
        rw [vecSub_self, hunit]
      rw [hrepl,
          stepX_sub A B _ _ (hxlen k) (hxlen (k - 1)) _ _ hunit hunit]
      have hsk : stateAt A B (List.replicate n 0) (stepU nn p i) k =
          stepX A B (stateAt A B (List.replicate n 0) (stepU nn p i) (k - 1))
            ((stepU nn p i).getD (k - 1) []) := by
        obtain ⟨j, rfl⟩ := Nat.exists_eq_succ_of_ne_zero h0
        rw [stateAt_succ]
        simp
      rw [Nat.add_sub_cancel, hsk, stepU_getD nn p i (k - 1) (by omega)]

unseal Rat.add Rat.mul Rat.sub Rat.inv in
/-- C5: for a discrete `StateSpace` system simulated over `n` samples with
no explicit `t`, the `dimpulse` output on each channel is the first
difference of the `dstep` output: at sample 0 they coincide (the step
output at sample `-1` counting as 0), and at sample `k ≥ 1` the impulse
output equals the step output at `k` minus the step output at `k-1`. -/
theorem dimpulse_eq_dstep_diff (A B C D : Mat) {n p : ℕ}
    (hA : IsMat A n n) (hB : IsMat B n p) (dt : ℚ) (hdt : 0 < dt)
    (hn : 0 < n) (hp : 0 < p) (nn : ℕ) (hnn : 0 < nn) (i k : ℕ)
    (hi : i < p) (hk : k < nn) :
    ∃ (tg : List ℚ) (yi ys : List (List (List ℚ))),
      dimpulse (.disc ⟨.ss A B C D, dt⟩) none none (some nn) = .ok (tg, yi) ∧
      dstep (.disc ⟨.ss A B C D, dt⟩) none none (some nn) = .ok (tg, ys) ∧
      (yi.getD i []).getD k [] =
        (if k = 0 then (ys.getD i []).getD 0 []
         else vecSub ((ys.getD i []).getD k [])
           ((ys.getD i []).getD (k - 1) [])) := by
  refine ⟨(List.range nn).map (fun (k : ℕ) => (k : ℚ) * dt), _, _,
    dimpulse_ss_eval A B C D dt hdt hB hn hp nn hnn,
    dstep_ss_eval A B C D dt hdt hB hn hp nn hnn, ?_⟩
  have hgetI : ∀ (u : ℕ → List (List ℚ)) (k' : ℕ), k' < nn →
      (u i).length = nn → (∀ r ∈ u i, r.length = p) →
      (((List.range p).map (fun i' =>
          List.zipWith (fun x uu => outY C D x uu)
            (simStates A B (List.replicate A.length 0) (u i')) (u i'))).getD
          i []).getD k' [] =
        outY C D (stateAt A B (List.replicate A.length 0) (u i) k')
          ((u i).getD k' []) := by
    intro u k' hk' hlen _
    rw [getD_map_range (fun i' =>
        List.zipWith (fun x uu => outY C D x uu)
          (simStates A B (List.replicate A.length 0) (u i')) (u i')) p i [] hi]
    rw [getD_zipWith (fun x uu => outY C D x uu)
        (simStates A B (List.replicate A.length 0) (u i)) (u i) k' [] [] []
        (by rw [length_simStates, hlen]; exact hk') (by rw [hlen]; exact hk')]
    rw [simStates_getD A B (List.replicate A.length 0) (u i) k'
        (by rw [hlen]; exact hk')]
  rw [hgetI (fun i' => impulseU nn p i') k hk (impulseU_length nn p i)
        (impulseU_rows nn p i),
      hgetI (fun i' => stepU nn p i') k hk (stepU_length nn p i)
        (stepU_rows nn p i)]
  by_cases h0 : k = 0
  · subst h0
    rw [if_pos rfl,
        hgetI (fun i' => stepU nn p i') 0 (by omega) (stepU_length nn p i)
          (stepU_rows nn p i)]
    rw [stateAt_zero, stateAt_zero, impulseU_getD nn p i 0 hk,
        stepU_getD nn p i 0 hk, if_pos rfl]
  · rw [if_neg h0,
        hgetI (fun i' => stepU nn p i') (k - 1) (by omega)
          (stepU_length nn p i) (stepU_rows nn p i)]
    rw [hA.1]
    rw [impulse_step_state_diff A B hA.1 hB.1 i nn k hk, if_neg h0,
        impulseU_getD nn p i k hk, if_neg h0]
    have hunit : ((List.range p).map
        (fun c => if c = i then (1 : ℚ) else 0)).length = p :=
      unitRow_length p i
    have hrepl : (List.replicate p (0 : ℚ)) =
        vecSub ((List.range p).map (fun c => if c = i then (1 : ℚ) else 0))
          ((List.range p).map (fun c => if c = i then (1 : ℚ) else 0)) := by
      rw [vecSub_self, hunit]
    have hxlen : ∀ m,
        (stateAt A B (List.replicate n 0) (stepU nn p i) m).length = n :=
      length_stateAt hA.1 hB.1 _ (by simp) _
    rw [hrepl, outY_sub C D _ _ (hxlen k) (hxlen (k - 1)) _ _ hunit hunit,
        stepU_getD nn p i k hk, stepU_getD nn p i (k - 1) (by omega)]

unseal Rat.add Rat.mul Rat.sub Rat.inv in
/-- Witness for C5: the first-difference relation instantiated for the
SISO system `1/(z-0.5)` over 3 samples at sample index 1. -/
theorem dimpulse_eq_dstep_diff_witness :
    ∃ (tg : List ℚ) (yi ys : List (List (List ℚ))),
      dimpulse (.disc ⟨.ss [[1/2]] [[1]] [[1]] [[0]], 1⟩) none none (some 3) =
        .ok (tg, yi) ∧
      dstep (.disc ⟨.ss [[1/2]] [[1]] [[1]] [[0]], 1⟩) none none (some 3) =
        .ok (tg, ys) ∧
      (yi.getD 0 []).getD 1 [] =
        (if (1 : ℕ) = 0 then (ys.getD 0 []).getD 0 []
         else vecSub ((ys.getD 0 []).getD 1 [])
           ((ys.getD 0 []).getD (1 - 1) [])) :=
  @dimpulse_eq_dstep_diff [[1/2]] [[1]] [[1]] [[0]] 1 1 (by decide) (by decide)
    1 (by decide) (by decide) (by decide) 3 (by decide) 0 1 (by decide)
    (by decide)

/-! ### C4: parallel composition commutes at the transfer-function level -/

/-- The `Fin`-indexed matrix carried by a list-of-rows array. -/
def toMat (M : Mat) (m n' : ℕ) : Matrix (Fin m) (Fin n') ℚ :=
  Matrix.of fun i j => entry M (i : ℕ) (j : ℕ)

/-- Modelled from the spec: the denominator produced by the external
`ss2tf` conversion routine (`cupyx.scipy.signal._iir_filter_conversions`,
not under `src/`): the characteristic polynomial `poly(A)` of the state
matrix. -/
noncomputable def ss2tfDen (nS : ℕ) (A : Mat) : Polynomial ℚ :=
  (toMat A nS nS).charpoly

/-- Modelled from the spec: one numerator row of the external `ss2tf`
conversion for a single-input system: `poly(A - B·Cₖ) + (dₖ - 1)·poly(A)`
(the standard companion/characteristic-polynomial formula, with `Cₖ` the
`k`-th output row and `dₖ` the `k`-th feedthrough entry). -/
noncomputable def ss2tfNumRow (nS : ℕ) (A B : Mat) (crow : List ℚ) (d : ℚ) :
    Polynomial ℚ :=
  (toMat A nS nS - toMat B nS 1 * toMat [crow] 1 nS).charpoly +
    Polynomial.C (d - 1) * (toMat A nS nS).charpoly

/-- Modelled from the spec: the external `ss2tf` conversion for a
single-input system with `q` outputs — one numerator row per output, and
the common denominator. -/
noncomputable def ss2tf (nS q : ℕ) (A B C D : Mat) :
    List (Polynomial ℚ) × Polynomial ℚ :=
  ((List.range q).map
     (fun k => ss2tfNumRow nS A B (C.getD k []) (entry D k 0)),
   ss2tfDen nS A)

/-- The block-swap permutation of `Fin (n1 + n2)`: the first `n2` indices
move up by `n1`, the rest move down by `n2`. -/
def swapFin (n1 n2 : ℕ) : Fin (n1 + n2) ≃ Fin (n1 + n2) where
  toFun i := if h : (i : ℕ) < n2 then ⟨(i : ℕ) + n1, by omega⟩
             else ⟨(i : ℕ) - n2, by omega⟩
  invFun j := if h : (j : ℕ) < n1 then ⟨(j : ℕ) + n2, by omega⟩
              else ⟨(j : ℕ) - n1, by omega⟩
  left_inv i := by
    dsimp only
    by_cases h : (i : ℕ) < n2
    · rw [dif_pos h, dif_neg (by simp)]
      exact Fin.ext (by simp)
    · rw [dif_neg h, dif_pos (by simp; omega)]
      exact Fin.ext (by simp; omega)
  right_inv j := by
    dsimp only
    by_cases h : (j : ℕ) < n1
    · rw [dif_pos h, dif_neg (by simp)]
      exact Fin.ext (by simp)
    · rw [dif_neg h, dif_pos (by simp; omega)]
      exact Fin.ext (by simp; omega)

theorem swapFin_val (n1 n2 : ℕ) (i : Fin (n1 + n2)) :
    ((swapFin n1 n2) i : ℕ) =
      if (i : ℕ) < n2 then (i : ℕ) + n1 else (i : ℕ) - n2 := by
  by_cases h : (i : ℕ) < n2 <;> simp [swapFin, h]

theorem entry_block_diag {X Y : Mat} {m n m' n' : ℕ} (hX : IsMat X m n)
    (hY : IsMat Y m' n') (hm : 0 < m) (hm' : 0 < m') (i j : ℕ) :
    entry (block_diag X Y) i j =
      if i < m then (if j < n then entry X i j else 0)
      else (if j < n then 0 else entry Y (i - m) (j - n)) := by
  unfold block_diag
  rw [hX.1, hY.1, hX.width_eq hm, hY.width_eq hm']
  rw [entry_vstack _ _ (isMat_hstack hX (isMat_zerosMat m n')) i j]
  by_cases him : i < m
  · rw [if_pos him, if_pos him, entry_hstack hX (isMat_zerosMat m n') i j him]
    by_cases hj : j < n
    · rw [if_pos hj, if_pos hj]
    · rw [if_neg hj, if_neg hj, entry_zerosMat]
  · rw [if_neg him, if_neg him]
    by_cases hi' : i - m < m'
    · rw [entry_hstack (isMat_zerosMat m' n) hY (i - m) j hi']
      by_cases hj : j < n
      · rw [if_pos hj, if_pos hj, entry_zerosMat]
      · rw [if_neg hj, if_neg hj]
    · have h1 : entry (hstack (zerosMat m' n) Y) (i - m) j = 0 := by
        unfold entry
        rw [List.getD_eq_default (hstack (zerosMat m' n) Y) [] (by
          rw [(isMat_hstack (isMat_zerosMat m' n) hY).1]
          omega)]
        simp
      have h2 : entry Y (i - m) (j - n) = 0 := by
        unfold entry
        rw [List.getD_eq_default Y [] (by rw [hY.1]; omega)]
        simp
      rw [h1, h2]
      split_ifs <;> rfl

theorem toMat_block_diag_swap {A1 A2 : Mat} {n1 n2 : ℕ}
    (hA1 : IsMat A1 n1 n1) (hA2 : IsMat A2 n2 n2) (hn1 : 0 < n1)
    (hn2 : 0 < n2) :
    toMat (block_diag A2 A1) (n1 + n2) (n1 + n2) =
      (toMat (block_diag A1 A2) (n1 + n2) (n1 + n2)).submatrix
        (swapFin n1 n2) (swapFin n1 n2) := by
  ext i j
  simp only [toMat, Matrix.of_apply, Matrix.submatrix_apply]
  rw [entry_block_diag hA2 hA1 hn2 hn1 (i : ℕ) (j : ℕ),
      entry_block_diag hA1 hA2 hn1 hn2 ((swapFin n1 n2 i : ℕ))
        ((swapFin n1 n2 j : ℕ)),
      swapFin_val, swapFin_val]
  by_cases h1 : (i : ℕ) < n2 <;> by_cases h2 : (j : ℕ) < n2 <;>
    simp only [h1, h2, if_true, if_false] <;> split_ifs <;>
    first
      | rfl
      | omega
      | simp [Nat.add_sub_cancel]

theorem toMat_vstack_swap {B1 B2 : Mat} {n1 n2 p : ℕ} (hB1 : IsMat B1 n1 p)
    (hB2 : IsMat B2 n2 p) :
    toMat (vstack B2 B1) (n1 + n2) p =
      (toMat (vstack B1 B2) (n1 + n2) p).submatrix (swapFin n1 n2) id := by
  ext i j
  simp only [toMat, Matrix.of_apply, Matrix.submatrix_apply, id]
  rw [entry_vstack B2 B1 hB2 (i : ℕ) (j : ℕ),
      entry_vstack B1 B2 hB1 ((swapFin n1 n2 i : ℕ)) (j : ℕ), swapFin_val]
  by_cases h1 : (i : ℕ) < n2 <;> simp only [h1, if_true, if_false] <;>
    split_ifs <;>
    first
      | rfl
      | omega
      | simp [Nat.add_sub_cancel]

theorem toMat_crow_swap {c1 c2 : List ℚ} {n1 n2 : ℕ} (h1 : c1.length = n1)
    (h2 : c2.length = n2) :
    toMat [c2 ++ c1] 1 (n1 + n2) =
      (toMat [c1 ++ c2] 1 (n1 + n2)).submatrix id (swapFin n1 n2) := by
  ext i j
  simp only [toMat, Matrix.of_apply, Matrix.submatrix_apply, id]
  have hi0 : (i : ℕ) = 0 := by omega
  rw [hi0]
  unfold entry
  simp only [List.getD_cons_zero]
  rw [swapFin_val]
  by_cases hj : (j : ℕ) < n2
  · rw [if_pos hj, List.getD_append _ _ _ _ (by omega),
        List.getD_append_right _ _ _ _ (by omega), h1, Nat.add_sub_cancel]
  · rw [if_neg hj, List.getD_append_right _ _ _ _ (by omega), h2,
        List.getD_append _ _ _ _ (by omega)]

theorem charpoly_submatrix_equiv {N : ℕ} (M : Matrix (Fin N) (Fin N) ℚ)
    (e : Fin N ≃ Fin N) : (M.submatrix ⇑e ⇑e).charpoly = M.charpoly := by
  have h : M.submatrix ⇑e ⇑e = Matrix.reindex e.symm e.symm M := by
    rw [Matrix.reindex_apply, Equiv.symm_symm]
  rw [h, Matrix.charpoly_reindex]

/-- The parallel interconnection succeeds whenever the stacked blocks
agree in the checked dimensions. -/
theorem parallelSS_ok (s1 s2 : SSSys) (hbw : width s1.B = width s2.B)
    (hcl : s1.C.length = s2.C.length) (hdl : s1.D.length = s2.D.length)
    (hdw : width s1.D = width s2.D) :
    parallelSS s1 s2 = .ok ⟨block_diag s1.A s2.A, vstack s1.B s2.B,
      hstack s1.C s2.C, matAddSame s1.D s2.D, s1.dt⟩ := by
  unfold parallelSS vstackChk hstackChk matAddChk
  rw [if_pos hbw]
  dsimp only
  rw [if_pos hcl]
  dsimp only
  rw [if_pos ⟨hdl, hdw⟩]

/-- C4: for compatible single-input `StateSpace` systems with matching `D`
shapes and the same sample period, the parallel compositions `S1 + S2` and
`S2 + S1` have identical transfer functions — every numerator row and the
denominator produced by `ss2tf` agree — even though their block-diagonal
state matrices `block_diag(A1, A2)` and `block_diag(A2, A1)` differ. -/
theorem parallel_add_tf_commutes (dt : ℚ) {n1 n2 q : ℕ}
    (A1 B1 C1 D1 A2 B2 C2 D2 : Mat)
    (hA1 : IsMat A1 n1 n1) (hB1 : IsMat B1 n1 1) (hC1 : IsMat C1 q n1)
    (hD1 : IsMat D1 q 1) (hA2 : IsMat A2 n2 n2) (hB2 : IsMat B2 n2 1)
    (hC2 : IsMat C2 q n2) (hD2 : IsMat D2 q 1)
    (hn1 : 0 < n1) (hn2 : 0 < n2) (hq : 0 < q) :
    ∃ r12 r21 : SSSys,
      StateSpace.add ⟨A1, B1, C1, D1, some dt⟩
          (.sys ⟨A2, B2, C2, D2, some dt⟩) = .ok r12 ∧
      StateSpace.add ⟨A2, B2, C2, D2, some dt⟩
          (.sys ⟨A1, B1, C1, D1, some dt⟩) = .ok r21 ∧
      ss2tf (n1 + n2) q r12.A r12.B r12.C r12.D =
        ss2tf (n1 + n2) q r21.A r21.B r21.C r21.D := by
  refine ⟨⟨block_diag A1 A2, vstack B1 B2, hstack C1 C2, matAddSame D1 D2,
      some dt⟩,
    ⟨block_diag A2 A1, vstack B2 B1, hstack C2 C1, matAddSame D2 D1,
      some dt⟩, ?_, ?_, ?_⟩
  · unfold StateSpace.add
    dsimp only
    rw [if_neg (by simp), if_neg (by simp)]
    exact parallelSS_ok _ _ (by rw [hB1.width_eq hn1, hB2.width_eq hn2])
      (by rw [hC1.1, hC2.1]) (by rw [hD1.1, hD2.1])
      (by rw [hD1.width_eq hq, hD2.width_eq hq])
  · unfold StateSpace.add
    dsimp only
    rw [if_neg (by simp), if_neg (by simp)]
    exact parallelSS_ok _ _ (by rw [hB1.width_eq hn1, hB2.width_eq hn2])
      (by rw [hC1.1, hC2.1]) (by rw [hD1.1, hD2.1])
      (by rw [hD1.width_eq hq, hD2.width_eq hq])
  · unfold ss2tf
    dsimp only
    have hden : ss2tfDen (n1 + n2) (block_diag A2 A1) =
        ss2tfDen (n1 + n2) (block_diag A1 A2) := by
      unfold ss2tfDen
      rw [toMat_block_diag_swap hA1 hA2 hn1 hn2,
          charpoly_submatrix_equiv _ (swapFin n1 n2)]
    rw [Prod.mk.injEq]
    refine ⟨?_, hden.symm⟩
    refine List.map_congr_left (fun k hk => ?_)
    have hkq : k < q := List.mem_range.mp hk
    have hrow12 : (hstack C1 C2).getD k [] = C1.getD k [] ++ C2.getD k [] :=
      getD_zipWith (· ++ ·) C1 C2 k [] [] [] (by rw [hC1.1]; exact hkq)
        (by rw [hC2.1]; exact hkq)
    have hrow21 : (hstack C2 C1).getD k [] = C2.getD k [] ++ C1.getD k [] :=
      getD_zipWith (· ++ ·) C2 C1 k [] [] [] (by rw [hC2.1]; exact hkq)
        (by rw [hC1.1]; exact hkq)
    have hd12 : entry (matAddSame D1 D2) k 0 = entry D1 k 0 + entry D2 k 0 :=
      entry_matAddSame hD1 hD2 k 0 hkq
    have hd21 : entry (matAddSame D2 D1) k 0 = entry D2 k 0 + entry D1 k 0 :=
      entry_matAddSame hD2 hD1 k 0 hkq
    rw [hrow12, hrow21, hd12, hd21]
    unfold ss2tfNumRow
    have hcharA : (toMat (block_diag A2 A1) (n1 + n2) (n1 + n2)).charpoly =
        (toMat (block_diag A1 A2) (n1 + n2) (n1 + n2)).charpoly := by
      rw [toMat_block_diag_swap hA1 hA2 hn1 hn2,
          charpoly_submatrix_equiv _ (swapFin n1 n2)]
    have hcharM :
        (toMat (block_diag A2 A1) (n1 + n2) (n1 + n2) -
          toMat (vstack B2 B1) (n1 + n2) 1 *
            toMat [C2.getD k [] ++ C1.getD k []] 1 (n1 + n2)).charpoly =
        (toMat (block_diag A1 A2) (n1 + n2) (n1 + n2) -
          toMat (vstack B1 B2) (n1 + n2) 1 *
            toMat [C1.getD k [] ++ C2.getD k []] 1 (n1 + n2)).charpoly := by
      rw [toMat_block_diag_swap hA1 hA2 hn1 hn2, toMat_vstack_swap hB1 hB2,
          toMat_crow_swap (hC1.row_length k hkq) (hC2.row_length k hkq)]
      have hid : (id : Fin 1 → Fin 1) = ⇑(Equiv.refl (Fin 1)) := rfl
      rw [hid, Matrix.submatrix_mul_equiv]
      have hsub : (toMat (block_diag A1 A2) (n1 + n2) (n1 + n2)).submatrix
            (swapFin n1 n2) (swapFin n1 n2) -
          ((toMat (vstack B1 B2) (n1 + n2) 1 *
            toMat [C1.getD k [] ++ C2.getD k []] 1 (n1 + n2)).submatrix
              (swapFin n1 n2) (swapFin n1 n2)) =
          (toMat (block_diag A1 A2) (n1 + n2) (n1 + n2) -
            toMat (vstack B1 B2) (n1 + n2) 1 *
              toMat [C1.getD k [] ++ C2.getD k []] 1 (n1 + n2)).submatrix
            (swapFin n1 n2) (swapFin n1 n2) := rfl
      rw [hsub, charpoly_submatrix_equiv _ (swapFin n1 n2)]
    rw [hcharA, hcharM, add_comm (entry D2 k 0) (entry D1 k 0)]

/-- Witness for C4: commutativity instantiated for two concrete one-state
SISO systems. -/
theorem parallel_add_tf_commutes_witness :
    ∃ r12 r21 : SSSys,
      StateSpace.add ⟨[[1]], [[1]], [[1]], [[1]], some 1⟩
          (.sys ⟨[[2]], [[1]], [[1]], [[1]], some 1⟩) = .ok r12 ∧
      StateSpace.add ⟨[[2]], [[1]], [[1]], [[1]], some 1⟩
          (.sys ⟨[[1]], [[1]], [[1]], [[1]], some 1⟩) = .ok r21 ∧
      ss2tf (1 + 1) 1 r12.A r12.B r12.C r12.D =
        ss2tf (1 + 1) 1 r21.A r21.B r21.C r21.D :=
  @parallel_add_tf_commutes 1 1 1 1 [[1]] [[1]] [[1]] [[1]] [[2]] [[1]] [[1]]
    [[1]] (by decide) (by decide) (by decide) (by decide) (by decide)
    (by decide) (by decide) (by decide) (by decide) (by decide) (by decide)

end Ltisys
